import Mathlib

/-!
# ldns-pcat: replaying captured DNS queries

A shallow embedding of `examples/ldns-pcat.c`: the payload extractor
`pcap2ldns_pkt_ip`, the link-type switch `pcap2ldns_pkt`, the hex dumper
`data2hex`, and the replay loop of `main`.  The typed accessors of
`rr_functions.c` follow in the namespace `LdnsRr`.

Conventions of the embedding.

* A byte (`u_char`) is a `Fin 256`.
* A pointer to bytes is the function giving the byte found at each index
  counted from the pointer, so `p + k` is `fun j => p (k + j)`; a pointer
  that may be `NULL` is an `Option`.
* A `FILE *` stream is the list of characters written to it so far; a
  function that writes to a stream takes the old contents and returns the
  new ones.
* `bpf_u_int32` and `size_t` values are natural numbers, reduced modulo
  `2^32` and `2^64` where the C arithmetic wraps.
-/

namespace LdnsPcat

/-! ## Data model -/

/-- The C type `u_char`: one unsigned byte. -/
abbrev u_char := Fin 256

/-- A non-null `u_char *`: index `j` holds the byte `p[j]`. -/
abbrev u_char_ptr := Nat → u_char

/-- The bytes `p[0], ..., p[l-1]` read through a pointer. -/
def bytes (p : u_char_ptr) (l : Nat) : List u_char :=
  (List.range l).map p

/-- A pointer to the first byte of a byte sequence (bytes past its end read as zero). -/
def ptr_of (q : List u_char) : u_char_ptr :=
  fun j => q.getD j 0

/-- The macro `DNS_UDP_OFFSET`. -/
def DNS_UDP_OFFSET : Nat := 42

/-- The number of values of a `bpf_u_int32`: its arithmetic is modulo `2^32`. -/
def U32 : Nat := 2 ^ 32

/-- The number of values of a `size_t` (LP64): its arithmetic is modulo `2^64`. -/
def SIZE_MAX1 : Nat := 2 ^ 64

/-- The libpcap `struct timeval` time stamp. -/
structure timeval where
  tv_sec : Nat
  tv_usec : Nat
deriving DecidableEq, Repr

/-- The libpcap `struct pcap_pkthdr`; `caplen` and `len` are `bpf_u_int32`. -/
structure pcap_pkthdr where
  ts : timeval
  caplen : Nat
  len : Nat
deriving DecidableEq, Repr

/-- Subtraction of two `bpf_u_int32` values: the integer difference reduced modulo `2^32`. -/
def u32_sub (a b : Nat) : Nat :=
  (((a : Int) - (b : Int)) % (U32 : Int)).toNat

/-! ## `pcap2ldns_pkt_ip` -/

/-- The function `pcap2ldns_pkt_ip(packet, h)`: the returned pointer (or `NULL`)
and the header as the call leaves it.  `h->caplen -= DNS_UDP_OFFSET` is an
unsigned 32-bit subtraction, and the test `h->caplen < 0` is made on the
unsigned result. -/
def pcap2ldns_pkt_ip (packet : u_char_ptr) (h : pcap_pkthdr) :
    Option u_char_ptr × pcap_pkthdr :=
  let h1 : pcap_pkthdr := { h with caplen := u32_sub h.caplen DNS_UDP_OFFSET }
  if h1.caplen < 0 then
    (none, h1)
  else
    (some (fun j => packet (DNS_UDP_OFFSET + j)), h1)

/-! ## `data2hex` and the `printf` conversions it relies on -/

/-- The conversion `%02x` of `printf`: lowercase hexadecimal, zero padded to width 2. -/
def fmt_02x (v : Nat) : List Char :=
  let ds := Nat.toDigits 16 v
  List.replicate (2 - ds.length) '0' ++ ds

/-- The conversion `%zd` of `printf` applied to a `size_t` value: the value is
read as a signed 64-bit integer and written in decimal. -/
def fmt_zd (v : Nat) : List Char :=
  let w := v % SIZE_MAX1
  if w < 2 ^ 63 then Nat.toDigits 10 w else '-' :: Nat.toDigits 10 (SIZE_MAX1 - w)

/-- The loop of `data2hex`, from index `i` with `n` iterations left: each
iteration writes `%02x` of `p[i]` and then one space. -/
def data2hex_loop (p : u_char_ptr) : Nat → Nat → List Char → List Char
  | _, 0, fp => fp
  | i, n + 1, fp => data2hex_loop p (i + 1) n (fp ++ fmt_02x (p i).val ++ [' '])

/-- The function `data2hex(fp, p, l)`: the loop over `i < l`, then a newline. -/
def data2hex (fp : List Char) (p : u_char_ptr) (l : Nat) : List Char :=
  data2hex_loop p 0 l fp ++ ['\n']

/-! ## `pcap2ldns_pkt` -/

/-- The constant `ETHERTYPE_IP` of the system headers. -/
def ETHERTYPE_IP : Nat := 0x0800

/-- The constant `ETHERTYPE_ARP` of the system headers. -/
def ETHERTYPE_ARP : Nat := 0x0806

/-- The macro `ETHERTYPE_IPV6`. -/
def ETHERTYPE_IPV6 : Nat := 0x86dd

/-- The diagnostic written for an ARP frame. -/
def msg_arp : List Char := "ARP pkt, dropping\n".toList

/-- The diagnostic written for any other non-IP frame. -/
def msg_not_ip : List Char := "Not IP pkt, dropping\n".toList

/-- The function `pcap2ldns_pkt(packet, h)` with the error stream threaded
through: returned pointer, header after the call, error stream after the call.

The source sets `eptr = (struct ether_header *) h`, so `eptr->ether_type` is the
16-bit value found at byte offset 12 of the capture header object `*h`, not of
the packet.  Which header fields lie there is fixed by the platform ABI; the
parameter `hdr_ether_type` gives that value for each header. -/
def pcap2ldns_pkt (hdr_ether_type : pcap_pkthdr → Nat) (err : List Char)
    (packet : u_char_ptr) (h : pcap_pkthdr) :
    Option u_char_ptr × pcap_pkthdr × List Char :=
  let ether_type := hdr_ether_type h
  if ether_type = ETHERTYPE_IP then
    ((pcap2ldns_pkt_ip packet h).1, (pcap2ldns_pkt_ip packet h).2, err)
  else if ether_type = ETHERTYPE_IPV6 then
    (none, h, err)
  else if ether_type = ETHERTYPE_ARP then
    (none, h, err ++ msg_arp)
  else
    (none, h, err ++ msg_not_ip)

/-- The little-endian object representation of an unsigned integer of `n` bytes. -/
def le_bytes (v : Nat) : Nat → List u_char
  | 0 => []
  | n + 1 => Fin.ofNat (v % 256) :: le_bytes (v / 256) n

/-- The object representation of `struct pcap_pkthdr` on a little-endian LP64
platform: `tv_sec` and `tv_usec` of 8 bytes each, then `caplen` and `len` of 4. -/
def hdr_bytes_lp64 (h : pcap_pkthdr) : List u_char :=
  le_bytes h.ts.tv_sec 8 ++ le_bytes h.ts.tv_usec 8 ++ le_bytes h.caplen 4 ++ le_bytes h.len 4

/-- The value of `((struct ether_header *) h)->ether_type` on a little-endian LP64
platform: the host-order 16-bit integer at bytes 12 and 13 of the header object. -/
def hdr_ether_type_lp64 (h : pcap_pkthdr) : Nat :=
  ((hdr_bytes_lp64 h).getD 12 0).val + 256 * ((hdr_bytes_lp64 h).getD 13 0).val

/-- The EtherType field of a captured Ethernet frame: bytes 12 and 13, network byte order. -/
def frame_ether_type (packet : u_char_ptr) : Nat :=
  256 * (packet 12).val + (packet 13).val

/-! ## The replay loop of `main` -/

/-- Modelled from the spec: the `ldns_buffer` query buffer (its code is not among
the sources here).  The spec describes a reusable byte buffer of bounded capacity
that is logically truncated to zero length when cleared; `data` holds the bytes
written so far, so the write position is `data.length`. -/
structure ldns_buffer where
  data : List u_char
  capacity : Nat
deriving DecidableEq, Repr

/-- Modelled from the spec: the constant `LDNS_MAX_PACKETLEN`, the maximum legal
DNS message size of 65535 bytes. -/
def LDNS_MAX_PACKETLEN : Nat := 65535

/-- Modelled from the spec: `ldns_buffer_new(capacity)`, an empty buffer. -/
def ldns_buffer_new (capacity : Nat) : ldns_buffer :=
  { data := [], capacity := capacity }

/-- Modelled from the spec: `ldns_buffer_write(buffer, data, count)` appends `count`
bytes at the write position.  A write that does not fit in the capacity has no
result (`none`): the run does not continue past it. -/
def ldns_buffer_write (b : ldns_buffer) (p : u_char_ptr) (count : Nat) : Option ldns_buffer :=
  if b.data.length + count ≤ b.capacity then
    some { b with data := b.data ++ bytes p count }
  else
    none

/-- Modelled from the spec: `ldns_buffer_clear(buffer)` truncates the buffer to zero length. -/
def ldns_buffer_clear (b : ldns_buffer) : ldns_buffer :=
  { b with data := [] }

/-- What `ldns_udp_send` hands back when it returns `LDNS_STATUS_OK`: the
answer pointer `result` and the answer length `size`. -/
structure udp_answer where
  result : u_char_ptr
  size : Nat

/-- The transport `ldns_udp_send`, a parameter of the model: given the number of
calls made before this one and the datagram (the written part of the query
buffer), `some` answer stands for `LDNS_STATUS_OK` and `none` for every other
status.  The destination and the timeout of a call are kept in the call log (`udp_call`);
the oracle is not given them. -/
abbrev Transport := Nat → List u_char → Option udp_answer

/-- The constant `AF_INET` of the system headers. -/
def AF_INET : Nat := 2

/-- The socket address `main` fills in before the loop: `ss_family = AF_INET`,
`sin_port = htons(port)` and `sin_addr` copied from the address that `ip_str` was
converted to.  The conversion is not among the sources; the address is kept as the
string it was converted from, the port as its number. -/
structure sockaddr_in where
  sin_family : Nat
  sin_port : Nat
  sin_addr : List Char
deriving DecidableEq, Repr

/-- The value `sizeof(struct sockaddr_in)` assigned to `tolen`. -/
def SIZEOF_SOCKADDR_IN : Nat := 16

/-- The arguments of one call `ldns_udp_send(&result, qpkt, data, tolen, timeout, &size)`:
the written part of the query buffer, the destination, its length, and the timeout. -/
structure udp_call where
  qbin : List u_char
  dst : sockaddr_in
  tolen : Nat
  timeout : timeval
deriving DecidableEq, Repr

/-- One event of the capture, as `pcap_next(p, &h)` delivers it: the packet
pointer `x` and the header `h`. -/
structure pcap_frame where
  x : u_char_ptr
  h : pcap_pkthdr

/-- The variables of `main` that the loop reads or writes, with the two output
streams and the list of calls made to the transport so far. -/
structure replay_state where
  i : Nat
  qpkt : ldns_buffer
  data : sockaddr_in
  tolen : Nat
  timeout : timeval
  out : List Char
  err : List Char
  sent : List udp_call
deriving DecidableEq, Repr

/-- The diagnostic of the loop when the transport does not return `LDNS_STATUS_OK`. -/
def msg_failure : List Char := "Failure to send packet\n".toList

/-- The writes of the success branch of the loop (lines 197 to 202):
`fprintf(stdout, "%zd\n%zd\n", i, h.caplen)`, `data2hex(stdout, q, h.caplen)`,
`fprintf(stdout, "%zd\n", size)`, `data2hex(stdout, result, size)`.  The 32-bit `h.caplen`
is printed at its value. -/
def main_emit (fp : List Char) (i : Nat) (q : u_char_ptr) (caplen : Nat)
    (result : u_char_ptr) (size : Nat) : List Char :=
  let fp1 := fp ++ fmt_zd i ++ ['\n'] ++ fmt_zd caplen ++ ['\n']
  let fp2 := data2hex fp1 q caplen
  let fp3 := fp2 ++ fmt_zd size ++ ['\n']
  data2hex fp3 result size

/-- One iteration of the `while` loop of `main` on the frame `f`.  The loop calls
`pcap2ldns_pkt_ip` directly and passes its result to `ldns_buffer_write`
without a test; `none` is a run that does not continue (a `NULL` source or a
write that does not fit). -/
def main_loop_body (ldns_udp_send : Transport) (s : replay_state) (f : pcap_frame) :
    Option replay_state :=
  let r := pcap2ldns_pkt_ip f.x f.h
  let h := r.2
  match r.1 with
  | none => none
  | some q =>
    match ldns_buffer_write s.qpkt q h.caplen with
    | none => none
    | some qpkt =>
      let s1 : replay_state :=
        { s with qpkt := qpkt,
                 sent := s.sent ++ [{ qbin := qpkt.data, dst := s.data, tolen := s.tolen,
                                      timeout := s.timeout }] }
      let s2 : replay_state :=
        match ldns_udp_send s.sent.length qpkt.data with
        | some a => { s1 with out := main_emit s1.out s1.i q h.caplen a.result a.size }
        | none => { s1 with err := s1.err ++ msg_failure }
      some { s2 with qpkt := ldns_buffer_clear s2.qpkt, i := (s2.i + 1) % SIZE_MAX1 }

/-- How a run of the loop ended: the last state reached, and whether the run
stopped before the capture was exhausted. -/
structure run_result where
  state : replay_state
  aborted : Bool
deriving DecidableEq, Repr

/-- The `while ((x = pcap_next(p, &h)))` loop over the frames of a capture. -/
def main_loop (ldns_udp_send : Transport) : replay_state → List pcap_frame → run_result
  | s, [] => { state := s, aborted := false }
  | s, f :: fs =>
    match main_loop_body ldns_udp_send s f with
    | none => { state := s, aborted := true }
    | some s1 => main_loop ldns_udp_send s1 fs

/-- The macro `DIFF_VERSION`. -/
def DIFF_VERSION : List Char := "1.0".toList

/-- The header line, `fprintf(stdout, ";v%s <log>  %s:%d\n", DIFF_VERSION, log, ip_str, port)`,
the label standing between a grave accent and an apostrophe. -/
def main_header (log ip_str : List Char) (port : Nat) : List Char :=
  [';', 'v'] ++ DIFF_VERSION ++ [' ', Char.ofNat 96] ++ log ++ [Char.ofNat 39, ' ', ' ']
    ++ ip_str ++ [':'] ++ Nat.toDigits 10 port ++ ['\n']

/-- The state of `main` when the loop is entered: query buffer allocated, `timeout` set to
2 seconds and 0 microseconds, socket address and `tolen` set, header written, `i = 1`. -/
def main_init (log ip_str : List Char) (port : Nat) : replay_state :=
  { i := 1, qpkt := ldns_buffer_new LDNS_MAX_PACKETLEN,
    data := { sin_family := AF_INET, sin_port := port, sin_addr := ip_str },
    tolen := SIZEOF_SOCKADDR_IN,
    timeout := { tv_sec := 2, tv_usec := 0 },
    out := main_header log ip_str port, err := [], sent := [] }

/-- The part of `main` from the header line to the end of the loop. -/
def main_run (log ip_str : List Char) (port : Nat) (ldns_udp_send : Transport)
    (capture : List pcap_frame) : run_result :=
  main_loop ldns_udp_send (main_init log ip_str port) capture

/-! ## A reader for the record format

The decoder below follows the description of the output format: five lines,
decimal numbers and space-separated hexadecimal pairs, read case-insensitively. -/

/-- Reads one newline-terminated line: the line and what follows it. -/
def read_line : List Char → Option (List Char × List Char)
  | [] => none
  | c :: cs =>
    if c = '\n' then some ([], cs)
    else match read_line cs with
      | none => none
      | some r => some (c :: r.1, r.2)

/-- The value of a decimal digit. -/
def digit_val (c : Char) : Option Nat :=
  if '0'.toNat ≤ c.toNat ∧ c.toNat ≤ '9'.toNat then some (c.toNat - '0'.toNat) else none

/-- The value of a hexadecimal digit of either case. -/
def hex_val (c : Char) : Option Nat :=
  if '0'.toNat ≤ c.toNat ∧ c.toNat ≤ '9'.toNat then some (c.toNat - '0'.toNat)
  else if 'a'.toNat ≤ c.toNat ∧ c.toNat ≤ 'f'.toNat then some (c.toNat - 'a'.toNat + 10)
  else if 'A'.toNat ≤ c.toNat ∧ c.toNat ≤ 'F'.toNat then some (c.toNat - 'A'.toNat + 10)
  else none

/-- Reads decimal digits onto an accumulator. -/
def parse_decimal_aux : List Char → Nat → Option Nat
  | [], acc => some acc
  | c :: cs, acc =>
    match digit_val c with
    | none => none
    | some d => parse_decimal_aux cs (acc * 10 + d)

/-- Reads a non-empty string of decimal digits. -/
def parse_decimal (l : List Char) : Option Nat :=
  if l = [] then none else parse_decimal_aux l 0

/-- Splits a line at spaces into its non-empty tokens; `cur` is the token being read, reversed. -/
def tokens_aux : List Char → List Char → List (List Char)
  | [], cur => if cur = [] then [] else [cur.reverse]
  | c :: cs, cur =>
    if c = ' ' then
      if cur = [] then tokens_aux cs [] else cur.reverse :: tokens_aux cs []
    else tokens_aux cs (c :: cur)

/-- The space-separated tokens of a line. -/
def tokens (l : List Char) : List (List Char) :=
  tokens_aux l []

/-- Reads one token of exactly two hexadecimal digits as a byte. -/
def parse_hex_token : List Char → Option u_char
  | [a, b] =>
    match hex_val a, hex_val b with
    | some x, some y => if h : 16 * x + y < 256 then some ⟨16 * x + y, h⟩ else none
    | _, _ => none
  | _ => none

/-- Reads each token of a list as a hexadecimal pair. -/
def parse_hex_tokens : List (List Char) → Option (List u_char)
  | [] => some []
  | t :: ts =>
    match parse_hex_token t, parse_hex_tokens ts with
    | some b, some bs => some (b :: bs)
    | _, _ => none

/-- Reads a line of space-separated hexadecimal pairs. -/
def parse_hex_line (l : List Char) : Option (List u_char) :=
  parse_hex_tokens (tokens l)

/-- The two lowercase hexadecimal digits of a byte, high digit first. -/
def hex_pair (b : u_char) : List Char :=
  [Nat.digitChar (b.val / 16), Nat.digitChar (b.val % 16)]

/-- A byte sequence as hexadecimal pairs, each followed by one space. -/
def hex_pairs (bs : List u_char) : List Char :=
  (bs.map (fun b => hex_pair b ++ [' '])).flatten

/-- The lowercase hexadecimal digits. -/
def lower_hex_digits : List Char := "0123456789abcdef".toList

/-- A decoded record: sequence number, query length, query, answer length, answer. -/
structure replay_record where
  seq : Nat
  qsize : Nat
  qdata : List u_char
  asize : Nat
  adata : List u_char
deriving DecidableEq, Repr

/-- Reads the five lines of one record; nothing may follow them. -/
def parse_record (text : List Char) : Option replay_record :=
  match read_line text with
  | none => none
  | some (l1, r1) =>
  match read_line r1 with
  | none => none
  | some (l2, r2) =>
  match read_line r2 with
  | none => none
  | some (l3, r3) =>
  match read_line r3 with
  | none => none
  | some (l4, r4) =>
  match read_line r4 with
  | none => none
  | some (l5, r5) =>
    if r5 ≠ [] then none else
    match parse_decimal l1, parse_decimal l2, parse_hex_line l3, parse_decimal l4,
        parse_hex_line l5 with
    | some i, some n, some q, some m, some a =>
      some { seq := i, qsize := n, qdata := q, asize := m, adata := a }
    | _, _, _, _, _ => none

/-! ## Views of a run used to state its properties -/

/-- The bytes the loop reads through `q` for the frame `f`: those from offset 42 of the
packet, as many as the `caplen` that `pcap2ldns_pkt_ip` leaves in the header. -/
def frame_payload (f : pcap_frame) : List u_char :=
  bytes (fun j => f.x (DNS_UDP_OFFSET + j)) (pcap2ldns_pkt_ip f.x f.h).2.caplen

/-- The record text of one frame: what an iteration entered with counter `i`, after `idx`
earlier transport calls and with an empty query buffer, appends to the output stream. -/
def step_out (ldns_udp_send : Transport) (i idx : Nat) (f : pcap_frame) : List Char :=
  match ldns_udp_send idx (frame_payload f) with
  | some a =>
    main_emit [] i (fun j => f.x (DNS_UDP_OFFSET + j)) (pcap2ldns_pkt_ip f.x f.h).2.caplen
      a.result a.size
  | none => []

/-- The record of the `k`-th frame of a capture (counting from 1) in a run entered with an
empty query buffer and no earlier transport call; `none` when that frame has no record. -/
def frame_record (ldns_udp_send : Transport) (capture : List pcap_frame) (k : Nat) :
    Option (List Char) :=
  match capture[k - 1]? with
  | none => none
  | some f =>
    match ldns_udp_send (k - 1) (frame_payload f) with
    | some a =>
      some (main_emit [] k (fun j => f.x (DNS_UDP_OFFSET + j))
        (pcap2ldns_pkt_ip f.x f.h).2.caplen a.result a.size)
    | none => none

/-- Whether the payload of the frame `f` fits the empty query buffer of `main`: the `caplen`
that `pcap2ldns_pkt_ip` leaves in the header does not exceed `LDNS_MAX_PACKETLEN`. -/
def frame_fits (f : pcap_frame) : Bool :=
  decide ((pcap2ldns_pkt_ip f.x f.h).2.caplen ≤ LDNS_MAX_PACKETLEN)

/-- The call made for the frame `f` from a state with an empty query buffer. -/
def frame_call (s : replay_state) (f : pcap_frame) : udp_call :=
  { qbin := frame_payload f, dst := s.data, tolen := s.tolen, timeout := s.timeout }

/-- The record of the frame at index `j` (counting from 0) of a capture, in a run entered
with counter 1, an empty query buffer and no earlier transport call: the five lines written
when the transport answers the payload of that frame, `none` when it does not or when the
capture has no such frame. -/
def record_at (ldns_udp_send : Transport) (capture : List pcap_frame) (j : Nat) :
    Option (List Char) :=
  match capture[j]? with
  | none => none
  | some f =>
    match ldns_udp_send j (frame_payload f) with
    | some a =>
      some (main_emit [] ((1 + j) % SIZE_MAX1) (fun k => f.x (DNS_UDP_OFFSET + k))
        (pcap2ldns_pkt_ip f.x f.h).2.caplen a.result a.size)
    | none => none

/-- The header line without its newline. -/
def main_header_line (log ip_str : List Char) (port : Nat) : List Char :=
  [';', 'v'] ++ DIFF_VERSION ++ [' ', Char.ofNat 96] ++ log ++ [Char.ofNat 39, ' ', ' ']
    ++ ip_str ++ [':'] ++ Nat.toDigits 10 port

/-- Splits a text into its lines; `cur` is the line being read, reversed.  Text after the
last newline, if any, counts as a line. -/
def text_lines_aux : List Char → List Char → List (List Char)
  | [], cur => if cur = [] then [] else [cur.reverse]
  | c :: cs, cur =>
    if c = '\n' then cur.reverse :: text_lines_aux cs [] else text_lines_aux cs (c :: cur)

/-- The lines of a text. -/
def text_lines (t : List Char) : List (List Char) :=
  text_lines_aux t []

/-- Whether a line begins with a semicolon. -/
def starts_with_semicolon (l : List Char) : Bool :=
  l.head? == some ';'

/-! ## Sample frames -/

/-- An Ethernet frame of 42 header bytes (EtherType `hi lo` at bytes 12 and 13, the other
header bytes zero) followed by `rest`. -/
def eth_frame (hi lo : u_char) (rest : List u_char) : List u_char :=
  List.replicate 12 0 ++ [hi, lo] ++ List.replicate 28 0 ++ rest

/-- A capture header with the given captured length, stamped at second 1. -/
def sample_hdr (caplen : Nat) : pcap_pkthdr :=
  { ts := { tv_sec := 1, tv_usec := 0 }, caplen := caplen, len := caplen }

/-- Frame (a): an IPv4 frame carrying the four query bytes `12 34 01 00`. -/
def frame_a : pcap_frame :=
  { x := ptr_of (eth_frame 0x08 0x00 [0x12, 0x34, 0x01, 0x00]), h := sample_hdr 46 }

/-- Frame (b): an ARP frame, 42 bytes padded with two zero bytes. -/
def frame_b : pcap_frame :=
  { x := ptr_of (eth_frame 0x08 0x06 [0x00, 0x00]), h := sample_hdr 44 }

/-- Frame (c): an IPv4 frame carrying the four query bytes `56 78 01 00`. -/
def frame_c : pcap_frame :=
  { x := ptr_of (eth_frame 0x08 0x00 [0x56, 0x78, 0x01, 0x00]), h := sample_hdr 46 }

/-- A two-byte answer `ca fe`. -/
def sample_answer : udp_answer :=
  { result := ptr_of [0xca, 0xfe], size := 2 }

/-- A transport that answers its first call only; later calls time out. -/
def answer_first_only : Transport :=
  fun idx _ => if idx = 0 then some sample_answer else none

/-- A transport that answers every datagram but the query of frame (c), which times out. -/
def answer_all_but_c : Transport :=
  fun _ d => if d = [0x56, 0x78, 0x01, 0x00] then none else some sample_answer

/-- The state after frame (a) alone has been replayed and answered, streams left empty. -/
def sample_state : replay_state :=
  { i := 2, qpkt := ldns_buffer_new LDNS_MAX_PACKETLEN,
    data := { sin_family := AF_INET, sin_port := 53, sin_addr := [] },
    tolen := SIZEOF_SOCKADDR_IN, timeout := { tv_sec := 2, tv_usec := 0 },
    out := [], err := [],
    sent := [{ qbin := frame_payload frame_a,
               dst := { sin_family := AF_INET, sin_port := 53, sin_addr := [] },
               tolen := SIZEOF_SOCKADDR_IN, timeout := { tv_sec := 2, tv_usec := 0 } }] }

/-- A transport that never answers. -/
def answer_never : Transport :=
  fun _ _ => none

end LdnsPcat

/-!
# rr_functions.c: typed access to the rdata fields of a resource record

A shallow embedding of `rr_functions.c`.  A pointer to an rdata field (`ldns_rdf *`) is
an `Option` of a handle that names the object; a pointer to a record (`ldns_rr *`) is an
`Option` of the record it points to, and a function that writes through it returns the
record as the call leaves it.
-/

namespace LdnsRr

/-- The handle of an `ldns_rdf` object; `ldns_rdf *` is `Option ldns_rdf`, `none` for `NULL`. -/
abbrev ldns_rdf := Nat

/-- The type `ldns_rr_type`, the numeric DNS record type. -/
abbrev ldns_rr_type := Nat

/-- The enumerator `LDNS_RR_TYPE_A`. -/
def LDNS_RR_TYPE_A : ldns_rr_type := 1

/-- The enumerator `LDNS_RR_TYPE_NS`. -/
def LDNS_RR_TYPE_NS : ldns_rr_type := 2

/-- The enumerator `LDNS_RR_TYPE_MX`. -/
def LDNS_RR_TYPE_MX : ldns_rr_type := 15

/-- The enumerator `LDNS_RR_TYPE_AAAA`. -/
def LDNS_RR_TYPE_AAAA : ldns_rr_type := 28

/-- The enumerator `LDNS_RR_TYPE_RRSIG`. -/
def LDNS_RR_TYPE_RRSIG : ldns_rr_type := 46

/-- Modelled from the spec: the record `ldns_rr` of rr.h, which is not among the sources.
It has an owner, a time to live, a class, a type, and an array of rdata field pointers
whose length is the rdata count; a slot of the array may hold `NULL`. -/
structure ldns_rr where
  _owner : Option ldns_rdf
  _ttl : Nat
  _rr_class : Nat
  _rr_type : ldns_rr_type
  _rdata_fields : List (Option ldns_rdf)
deriving DecidableEq, Repr

/-- Modelled from the spec: `ldns_rr_get_type(rr)` of rr.c, the type of the record. -/
def ldns_rr_get_type (rr : ldns_rr) : ldns_rr_type :=
  rr._rr_type

/-- Modelled from the spec: `ldns_rr_rd_count(rr)` of rr.c, the number of rdata fields. -/
def ldns_rr_rd_count (rr : ldns_rr) : Nat :=
  rr._rdata_fields.length

/-- Modelled from the spec: `ldns_rr_rdf(rr, nr)` of rr.c, the rdata field at position `nr`,
`NULL` when `nr` is not below the rdata count. -/
def ldns_rr_rdf (rr : ldns_rr) (nr : Nat) : Option ldns_rdf :=
  if nr < ldns_rr_rd_count rr then rr._rdata_fields.getD nr none else none

/-- Modelled from the spec: `ldns_rr_set_rdf(rr, f, position)` of rr.c.  When `position` is
below the rdata count it stores `f` in that slot and returns the pointer the slot held;
otherwise it returns `NULL` and leaves the record as it is.  The result is the returned
pointer and the record after the call. -/
def ldns_rr_set_rdf (rr : ldns_rr) (f : Option ldns_rdf) (position : Nat) :
    Option ldns_rdf × ldns_rr :=
  if position < ldns_rr_rd_count rr then
    (rr._rdata_fields.getD position none,
      { rr with _rdata_fields := rr._rdata_fields.set position f })
  else
    (none, rr)

/-- What a setter leaves behind: the value it returns, the record after the call (`none`
when the pointer passed was `NULL`), and the pointer it handed to `FREE`, if any. -/
structure set_result where
  ret : Bool
  rr : Option ldns_rr
  freed : Option ldns_rdf
deriving DecidableEq, Repr

/-- The function `ldns_rr_function(type, rr, pos)`. -/
def ldns_rr_function (type : ldns_rr_type) (rr : Option ldns_rr) (pos : Nat) :
    Option ldns_rdf :=
  match rr with
  | none => none
  | some r =>
    if ldns_rr_get_type r ≠ type then none
    else ldns_rr_rdf r pos

/-- The function `ldns_rr_set_function(type, rr, rdf, pos)`. -/
def ldns_rr_set_function (type : ldns_rr_type) (rr : Option ldns_rr) (rdf : Option ldns_rdf)
    (pos : Nat) : set_result :=
  match rr with
  | none => { ret := false, rr := none, freed := none }
  | some r =>
    if ldns_rr_get_type r ≠ type then { ret := false, rr := some r, freed := none }
    else
      match (ldns_rr_set_rdf r rdf pos).1 with
      | some pop => { ret := true, rr := some (ldns_rr_set_rdf r rdf pos).2, freed := some pop }
      | none => { ret := false, rr := some (ldns_rr_set_rdf r rdf pos).2, freed := none }

/-- The function `ldns_rr_address(r)`. -/
def ldns_rr_address (r : Option ldns_rr) : Option ldns_rdf :=
  match r with
  | none => none
  | some x =>
    if ldns_rr_get_type x ≠ LDNS_RR_TYPE_A ∧ ldns_rr_get_type x ≠ LDNS_RR_TYPE_AAAA then none
    else ldns_rr_rdf x 0

/-- The function `ldns_rr_set_address(r, f)`. -/
def ldns_rr_set_address (r : Option ldns_rr) (f : Option ldns_rdf) : set_result :=
  match r with
  | none => { ret := false, rr := none, freed := none }
  | some x =>
    if ldns_rr_get_type x ≠ LDNS_RR_TYPE_A ∧ ldns_rr_get_type x ≠ LDNS_RR_TYPE_AAAA then
      { ret := false, rr := some x, freed := none }
    else
      match (ldns_rr_set_rdf x f 0).1 with
      | some pop => { ret := true, rr := some (ldns_rr_set_rdf x f 0).2, freed := some pop }
      | none => { ret := false, rr := some (ldns_rr_set_rdf x f 0).2, freed := none }

/-- The function `ldns_rr_nsdname(r)`. -/
def ldns_rr_nsdname (r : Option ldns_rr) : Option ldns_rdf :=
  ldns_rr_function LDNS_RR_TYPE_NS r 0

/-- The function `ldns_rr_preference(r)`. -/
def ldns_rr_preference (r : Option ldns_rr) : Option ldns_rdf :=
  ldns_rr_function LDNS_RR_TYPE_MX r 0

/-- The function `ldns_rr_exchange(r)`. -/
def ldns_rr_exchange (r : Option ldns_rr) : Option ldns_rdf :=
  ldns_rr_function LDNS_RR_TYPE_MX r 1

/-- The function `ldns_rr_typecovered(r)`. -/
def ldns_rr_typecovered (r : Option ldns_rr) : Option ldns_rdf :=
  ldns_rr_function LDNS_RR_TYPE_RRSIG r 0

/-- The function `ldns_rr_set_typecovered(r, f)`. -/
def ldns_rr_set_typecovered (r : Option ldns_rr) (f : Option ldns_rdf) : set_result :=
  ldns_rr_set_function LDNS_RR_TYPE_RRSIG r f 0

/-- The function `ldns_rr_algorithm(r)`. -/
def ldns_rr_algorithm (r : Option ldns_rr) : Option ldns_rdf :=
  ldns_rr_function LDNS_RR_TYPE_RRSIG r 1

/-- The function `ldns_rr_set_algorithm(r, f)`. -/
def ldns_rr_set_algorithm (r : Option ldns_rr) (f : Option ldns_rdf) : set_result :=
  ldns_rr_set_function LDNS_RR_TYPE_RRSIG r f 1

/-- The function `ldns_rr_labels(r)`. -/
def ldns_rr_labels (r : Option ldns_rr) : Option ldns_rdf :=
  ldns_rr_function LDNS_RR_TYPE_RRSIG r 2

/-- The function `ldns_rr_set_labels(r, f)`. -/
def ldns_rr_set_labels (r : Option ldns_rr) (f : Option ldns_rdf) : set_result :=
  ldns_rr_set_function LDNS_RR_TYPE_RRSIG r f 2

/-- The function `ldns_rr_origttl(r)`. -/
def ldns_rr_origttl (r : Option ldns_rr) : Option ldns_rdf :=
  ldns_rr_function LDNS_RR_TYPE_RRSIG r 3

/-- The function `ldns_rr_set_origttl(r, f)`. -/
def ldns_rr_set_origttl (r : Option ldns_rr) (f : Option ldns_rdf) : set_result :=
  ldns_rr_set_function LDNS_RR_TYPE_RRSIG r f 3

/-- The function `ldns_rr_expiration(r)`. -/
def ldns_rr_expiration (r : Option ldns_rr) : Option ldns_rdf :=
  ldns_rr_function LDNS_RR_TYPE_RRSIG r 4

/-- The function `ldns_rr_set_expiration(r, f)`. -/
def ldns_rr_set_expiration (r : Option ldns_rr) (f : Option ldns_rdf) : set_result :=
  ldns_rr_set_function LDNS_RR_TYPE_RRSIG r f 4

/-- The function `ldns_rr_inception(r)`. -/
def ldns_rr_inception (r : Option ldns_rr) : Option ldns_rdf :=
  ldns_rr_function LDNS_RR_TYPE_RRSIG r 5

/-- The function `ldns_rr_set_inception(r, f)`. -/
def ldns_rr_set_inception (r : Option ldns_rr) (f : Option ldns_rdf) : set_result :=
  ldns_rr_set_function LDNS_RR_TYPE_RRSIG r f 5

/-- The function `ldns_rr_keytag(r)`. -/
def ldns_rr_keytag (r : Option ldns_rr) : Option ldns_rdf :=
  ldns_rr_function LDNS_RR_TYPE_RRSIG r 6

/-- The function `ldns_rr_set_keytag(r, f)`. -/
def ldns_rr_set_keytag (r : Option ldns_rr) (f : Option ldns_rdf) : set_result :=
  ldns_rr_set_function LDNS_RR_TYPE_RRSIG r f 6

/-- The function `ldns_rr_signame(r)`. -/
def ldns_rr_signame (r : Option ldns_rr) : Option ldns_rdf :=
  ldns_rr_function LDNS_RR_TYPE_RRSIG r 7

/-- The function `ldns_rr_set_signame(r, f)`. -/
def ldns_rr_set_signame (r : Option ldns_rr) (f : Option ldns_rdf) : set_result :=
  ldns_rr_set_function LDNS_RR_TYPE_RRSIG r f 7

/-- The function `ldns_rr_sig(r)`. -/
def ldns_rr_sig (r : Option ldns_rr) : Option ldns_rdf :=
  ldns_rr_function LDNS_RR_TYPE_RRSIG r 8

/-- The function `ldns_rr_set_sig(r, f)`. -/
def ldns_rr_set_sig (r : Option ldns_rr) (f : Option ldns_rdf) : set_result :=
  ldns_rr_set_function LDNS_RR_TYPE_RRSIG r f 8

/-- The nine RRSIG getters, in the order of the RRSIG rdata fields. -/
def rrsig_getter : Fin 9 → Option ldns_rr → Option ldns_rdf
  | 0 => ldns_rr_typecovered
  | 1 => ldns_rr_algorithm
  | 2 => ldns_rr_labels
  | 3 => ldns_rr_origttl
  | 4 => ldns_rr_expiration
  | 5 => ldns_rr_inception
  | 6 => ldns_rr_keytag
  | 7 => ldns_rr_signame
  | 8 => ldns_rr_sig

/-- The nine RRSIG setters, in the order of the RRSIG rdata fields. -/
def rrsig_setter : Fin 9 → Option ldns_rr → Option ldns_rdf → set_result
  | 0 => ldns_rr_set_typecovered
  | 1 => ldns_rr_set_algorithm
  | 2 => ldns_rr_set_labels
  | 3 => ldns_rr_set_origttl
  | 4 => ldns_rr_set_expiration
  | 5 => ldns_rr_set_inception
  | 6 => ldns_rr_set_keytag
  | 7 => ldns_rr_set_signame
  | 8 => ldns_rr_set_sig

/-- An RRSIG record with the nine fields 100 to 108. -/
def sample_rrsig : ldns_rr :=
  { _owner := some 1, _ttl := 3600, _rr_class := 1, _rr_type := LDNS_RR_TYPE_RRSIG,
    _rdata_fields := [some 100, some 101, some 102, some 103, some 104, some 105, some 106,
      some 107, some 108] }

/-- An A record with the address field 200. -/
def sample_a : ldns_rr :=
  { _owner := some 1, _ttl := 3600, _rr_class := 1, _rr_type := LDNS_RR_TYPE_A,
    _rdata_fields := [some 200] }

/-- An MX record with the fields 300 and 301. -/
def sample_mx : ldns_rr :=
  { _owner := some 1, _ttl := 3600, _rr_class := 1, _rr_type := LDNS_RR_TYPE_MX,
    _rdata_fields := [some 300, some 301] }

/-- An RRSIG record that has only three rdata fields. -/
def short_rrsig : ldns_rr :=
  { _owner := some 1, _ttl := 3600, _rr_class := 1, _rr_type := LDNS_RR_TYPE_RRSIG,
    _rdata_fields := [some 100, some 101, some 102] }

end LdnsRr

namespace LdnsPcat

/-! ## Auxiliary definitions and lemmas -/

/-- The digits of `n` in base `b`, most significant first, by division. -/
def digits_of (b : Nat) (n : Nat) : List Char :=
  if n < b ∨ b < 2 then [Nat.digitChar (n % b)]
  else digits_of b (n / b) ++ [Nat.digitChar (n % b)]
termination_by n
decreasing_by
  rename_i h
  simp only [not_or, not_lt] at h
  exact Nat.div_lt_self (by omega) (by omega)

theorem toDigitsCore_eq_digits_of (b : Nat) (hb : 2 ≤ b) :
    ∀ (fuel n : Nat) (ds : List Char), n < fuel →
      Nat.toDigitsCore b fuel n ds = digits_of b n ++ ds := by
  intro fuel
  induction fuel with
  | zero => intro n ds h; omega
  | succ f ih =>
    intro n ds h
    rw [Nat.toDigitsCore, digits_of]
    by_cases hn : n < b
    · have h0 : n / b = 0 := Nat.div_eq_of_lt hn
      simp [h0, hn]
    · have hpos : n / b ≠ 0 := by
        intro h0
        have := (Nat.div_eq_zero_iff (by omega : 0 < b)).1 h0
        omega
      have hlt : n / b < f := by
        have : n / b < n := Nat.div_lt_self (by omega) (by omega)
        omega
      simp only [hpos, if_false]
      rw [ih _ _ hlt]
      have hnb : ¬ (n < b ∨ b < 2) := by omega
      simp [hnb]

theorem toDigits_eq_digits_of (b : Nat) (hb : 2 ≤ b) (n : Nat) :
    Nat.toDigits b n = digits_of b n := by
  rw [Nat.toDigits, toDigitsCore_eq_digits_of b hb _ _ _ (Nat.lt_succ_self n)]
  simp

theorem fmt_02x_eq_hex_pair (b : u_char) : fmt_02x b.val = hex_pair b := by
  obtain ⟨v, hv⟩ := b
  simp only [fmt_02x, hex_pair, toDigits_eq_digits_of 16 (by omega)]
  by_cases h : v < 16
  · rw [digits_of]
    have h0 : v / 16 = 0 := Nat.div_eq_of_lt h
    have h1 : v % 16 = v := Nat.mod_eq_of_lt h
    simp [h, h0, h1]
    rfl
  · rw [digits_of]
    have hn : ¬ (v < 16 ∨ 16 < 2) := by omega
    rw [if_neg hn, digits_of]
    have h2 : v / 16 < 16 := by omega
    have h3 : v / 16 % 16 = v / 16 := Nat.mod_eq_of_lt h2
    simp [h2, h3]

theorem fmt_zd_eq_toDigits (v : Nat) (hv : v < 2 ^ 63) : fmt_zd v = Nat.toDigits 10 v := by
  have h1 : v % SIZE_MAX1 = v := Nat.mod_eq_of_lt (by unfold SIZE_MAX1; omega)
  have h2 : v < 9223372036854775808 := by simpa using hv
  simp only [fmt_zd, h1]
  rw [if_pos (by simpa using h2)]

theorem data2hex_loop_eq (p : u_char_ptr) :
    ∀ (n i : Nat) (fp : List Char),
      data2hex_loop p i n fp = fp ++ hex_pairs ((List.range' i n).map p) := by
  intro n
  induction n with
  | zero => intro i fp; simp [data2hex_loop, hex_pairs]
  | succ n ih =>
    intro i fp
    rw [data2hex_loop, ih, List.range'_succ, fmt_02x_eq_hex_pair]
    simp [hex_pairs, List.append_assoc]

theorem data2hex_eq (fp : List Char) (p : u_char_ptr) (l : Nat) :
    data2hex fp p l = fp ++ hex_pairs (bytes p l) ++ ['\n'] := by
  rw [data2hex, data2hex_loop_eq, bytes, List.range_eq_range']

theorem bytes_length (p : u_char_ptr) (l : Nat) : (bytes p l).length = l := by
  simp [bytes]

theorem bytes_ptr_of (q : List u_char) : bytes (ptr_of q) q.length = q := by
  apply List.ext_getElem?
  intro n
  simp only [bytes, List.getElem?_map]
  by_cases h : n < q.length
  · rw [List.getElem?_range h]
    simp [ptr_of, List.getD_eq_getElem?_getD, List.getElem?_eq_getElem h]
  · have h1 : q.length ≤ n := by omega
    rw [List.getElem?_eq_none h1, List.getElem?_eq_none (by simpa using h1)]
    rfl

theorem digitChar_hex (d : Nat) (hd : d < 16) :
    Nat.digitChar d ∈ lower_hex_digits ∧ hex_val (Nat.digitChar d) = some d
      ∧ Nat.digitChar d ≠ ' ' ∧ Nat.digitChar d ≠ '\n' := by
  revert d
  decide

theorem digitChar_dec (d : Nat) (hd : d < 10) :
    digit_val (Nat.digitChar d) = some d ∧ Nat.digitChar d ≠ '\n' := by
  revert d
  decide

theorem parse_hex_token_hex_pair (b : u_char) : parse_hex_token (hex_pair b) = some b := by
  obtain ⟨v, hv⟩ := b
  have h1 := (digitChar_hex (v / 16) (by omega)).2.1
  have h2 := (digitChar_hex (v % 16) (Nat.mod_lt _ (by omega))).2.1
  have h3 : 16 * (v / 16) + v % 16 = v := Nat.div_add_mod v 16
  simp only [hex_pair, parse_hex_token, h1, h2]
  simp [h3, hv]

theorem tokens_aux_hex_pairs (bs : List u_char) :
    tokens_aux (hex_pairs bs) [] = bs.map hex_pair := by
  induction bs with
  | nil => simp [hex_pairs, tokens_aux]
  | cons b bs ih =>
    have h1 := (digitChar_hex (b.val / 16) (by omega)).2.2.1
    have h2 := (digitChar_hex (b.val % 16) (Nat.mod_lt _ (by omega))).2.2.1
    have hcons : hex_pairs (b :: bs)
        = Nat.digitChar (b.val / 16) :: Nat.digitChar (b.val % 16) :: ' ' :: hex_pairs bs := by
      simp [hex_pairs, hex_pair]
    rw [hcons]
    simp only [tokens_aux, h1, h2, if_false, if_true, List.map_cons, ih]
    simp [hex_pair]

theorem parse_hex_tokens_map (bs : List u_char) :
    parse_hex_tokens (bs.map hex_pair) = some bs := by
  induction bs with
  | nil => rfl
  | cons b bs ih => simp [parse_hex_tokens, parse_hex_token_hex_pair, ih]

theorem parse_hex_line_hex_pairs (bs : List u_char) :
    parse_hex_line (hex_pairs bs) = some bs := by
  rw [parse_hex_line, tokens, tokens_aux_hex_pairs, parse_hex_tokens_map]

theorem hex_pairs_no_newline (bs : List u_char) : ∀ c ∈ hex_pairs bs, c ≠ '\n' := by
  induction bs with
  | nil => simp [hex_pairs]
  | cons b bs ih =>
    have h1 := (digitChar_hex (b.val / 16) (by omega)).2.2.2
    have h2 := (digitChar_hex (b.val % 16) (Nat.mod_lt _ (by omega))).2.2.2
    have hcons : hex_pairs (b :: bs)
        = Nat.digitChar (b.val / 16) :: Nat.digitChar (b.val % 16) :: ' ' :: hex_pairs bs := by
      simp [hex_pairs, hex_pair]
    rw [hcons]
    intro c hc
    simp only [List.mem_cons] at hc
    rcases hc with rfl | rfl | rfl | hc
    · exact h1
    · exact h2
    · decide
    · exact ih c hc

theorem read_line_append (l rest : List Char) (hl : ∀ c ∈ l, c ≠ '\n') :
    read_line (l ++ '\n' :: rest) = some (l, rest) := by
  induction l with
  | nil => simp [read_line]
  | cons c cs ih =>
    have hc : c ≠ '\n' := hl c (List.mem_cons_self _ _)
    have ih1 := ih (fun d hd => hl d (List.mem_cons_of_mem _ hd))
    simp [read_line, hc, ih1]

theorem parse_decimal_aux_append (l : List Char) (c : Char) :
    ∀ acc, parse_decimal_aux (l ++ [c]) acc
      = match parse_decimal_aux l acc, digit_val c with
        | some a, some d => some (a * 10 + d)
        | _, _ => none := by
  induction l with
  | nil =>
    intro acc
    cases h : digit_val c <;> simp [parse_decimal_aux, h]
  | cons x xs ih =>
    intro acc
    cases hx : digit_val x with
    | none => simp [parse_decimal_aux, hx]
    | some d => simp [parse_decimal_aux, hx, ih]

theorem digits_of_ten (n : Nat) :
    parse_decimal_aux (digits_of 10 n) 0 = some n ∧ digits_of 10 n ≠ []
      ∧ ∀ c ∈ digits_of 10 n, c ≠ '\n' := by
  induction n using Nat.strong_induction_on with
  | _ n ih =>
    have hm := digitChar_dec (n % 10) (Nat.mod_lt _ (by omega))
    rw [digits_of]
    by_cases h : n < 10
    · have h1 : n % 10 = n := Nat.mod_eq_of_lt h
      rw [h1] at hm
      simp [h, h1, parse_decimal_aux, hm.1, hm.2]
    · have hn : ¬ (n < 10 ∨ 10 < 2) := by omega
      rw [if_neg hn]
      obtain ⟨i1, _, i3⟩ := ih (n / 10) (by omega)
      refine ⟨?_, by simp, ?_⟩
      · rw [parse_decimal_aux_append, i1, hm.1]
        simp only [Option.some.injEq]
        omega
      · intro c hc
        rcases List.mem_append.1 hc with hc | hc
        · exact i3 c hc
        · simp only [List.mem_singleton] at hc
          rw [hc]
          exact hm.2

theorem parse_decimal_toDigits (n : Nat) : parse_decimal (Nat.toDigits 10 n) = some n := by
  rw [toDigits_eq_digits_of 10 (by omega), parse_decimal, if_neg (digits_of_ten n).2.1]
  exact (digits_of_ten n).1

theorem toDigits_no_newline (n : Nat) : ∀ c ∈ Nat.toDigits 10 n, c ≠ '\n' := by
  rw [toDigits_eq_digits_of 10 (by omega)]
  exact (digits_of_ten n).2.2

theorem bytes_getElem? (p : u_char_ptr) (l n : Nat) :
    (bytes p l)[n]? = if n < l then some (p n) else none := by
  simp only [bytes, List.getElem?_map]
  by_cases h : n < l
  · simp [List.getElem?_range h, h]
  · rw [List.getElem?_eq_none (by simpa using h)]
    simp [h]

theorem u32_sub_lt (a b : Nat) : u32_sub a b < U32 := by
  simp only [u32_sub, U32]
  omega

theorem u32_sub_of_le (a b : Nat) (ha : a < U32) (hb : b ≤ a) : u32_sub a b = a - b := by
  simp only [u32_sub, U32] at *
  omega

theorem u32_sub_of_lt (a b : Nat) (hb : b < U32) (ha : a < b) :
    u32_sub a b = U32 - (b - a) := by
  simp only [u32_sub, U32] at *
  omega

theorem pcap2ldns_pkt_ip_fst (packet : u_char_ptr) (h : pcap_pkthdr) :
    (pcap2ldns_pkt_ip packet h).1 = some (fun j => packet (DNS_UDP_OFFSET + j)) := by
  simp [pcap2ldns_pkt_ip]

theorem pcap2ldns_pkt_ip_snd (packet : u_char_ptr) (h : pcap_pkthdr) :
    (pcap2ldns_pkt_ip packet h).2
      = { h with caplen := u32_sub h.caplen DNS_UDP_OFFSET } := by
  simp [pcap2ldns_pkt_ip]

theorem pcap2ldns_pkt_ip_caplen_lt (packet : u_char_ptr) (h : pcap_pkthdr) :
    (pcap2ldns_pkt_ip packet h).2.caplen < U32 := by
  rw [pcap2ldns_pkt_ip_snd]
  exact u32_sub_lt _ _

theorem data2hex_ptr_of (bs : List u_char) :
    data2hex [] (ptr_of bs) bs.length = hex_pairs bs ++ ['\n'] := by
  rw [data2hex_eq, bytes_ptr_of]
  simp

theorem main_emit_eq (fp : List Char) (i : Nat) (q : u_char_ptr) (n : Nat)
    (r : u_char_ptr) (m : Nat) :
    main_emit fp i q n r m
      = fp ++ (fmt_zd i ++ '\n' :: (fmt_zd n ++ '\n' :: (hex_pairs (bytes q n)
          ++ '\n' :: (fmt_zd m ++ '\n' :: (hex_pairs (bytes r m) ++ ['\n']))))) := by
  simp [main_emit, data2hex_eq, List.append_assoc]

theorem parse_record_main_emit (i : Nat) (q : u_char_ptr) (n : Nat) (r : u_char_ptr) (m : Nat)
    (hi : i < 2 ^ 63) (hn : n < 2 ^ 63) (hm : m < 2 ^ 63) :
    parse_record (main_emit [] i q n r m)
      = some { seq := i, qsize := n, qdata := bytes q n, asize := m, adata := bytes r m } := by
  rw [main_emit_eq, fmt_zd_eq_toDigits i hi, fmt_zd_eq_toDigits n hn, fmt_zd_eq_toDigits m hm]
  simp only [List.nil_append, parse_record]
  rw [read_line_append _ _ (toDigits_no_newline i)]
  simp only []
  rw [read_line_append _ _ (toDigits_no_newline n)]
  simp only []
  rw [read_line_append _ _ (hex_pairs_no_newline _)]
  simp only []
  rw [read_line_append _ _ (toDigits_no_newline m)]
  simp only []
  rw [read_line_append _ _ (hex_pairs_no_newline _)]
  simp [parse_decimal_toDigits, parse_hex_line_hex_pairs]

/-! ## The payload extractor -/

/-- C1: for a frame whose captured length `c` is at least 42, `pcap2ldns_pkt_ip` returns a
non-null pointer, the pointer to byte 42 of the frame, and leaves `c - 42` in `caplen`:
payload byte `j` is frame byte `42 + j` for `j < c - 42`, and the payload is the bytes of
the frame from offset 42 up to `c`. -/
theorem pcap2ldns_pkt_ip_payload (packet : u_char_ptr) (h : pcap_pkthdr)
    (hty : h.caplen < U32) (hc : DNS_UDP_OFFSET ≤ h.caplen) :
    ∃ q, (pcap2ldns_pkt_ip packet h).1 = some q
      ∧ (pcap2ldns_pkt_ip packet h).2.caplen = h.caplen - 42
      ∧ (∀ j, j < h.caplen - 42 → q j = packet (42 + j))
      ∧ (bytes q (pcap2ldns_pkt_ip packet h).2.caplen).length = h.caplen - 42
      ∧ bytes q (pcap2ldns_pkt_ip packet h).2.caplen = (bytes packet h.caplen).drop 42 := by
  have hcap : (pcap2ldns_pkt_ip packet h).2.caplen = h.caplen - 42 := by
    rw [pcap2ldns_pkt_ip_snd]
    exact u32_sub_of_le _ _ hty hc
  refine ⟨fun j => packet (DNS_UDP_OFFSET + j), pcap2ldns_pkt_ip_fst packet h, hcap,
    fun j _ => rfl, ?_, ?_⟩
  · rw [bytes_length, hcap]
  · rw [hcap]
    apply List.ext_getElem?
    intro n
    rw [List.getElem?_drop, bytes_getElem?, bytes_getElem?]
    simp only [DNS_UDP_OFFSET] at *
    by_cases hn : n < h.caplen - 42
    · rw [if_pos hn, if_pos (by omega)]
    · rw [if_neg hn, if_neg (by omega)]

/-- Witness of C1: a frame of 44 captured bytes. -/
theorem pcap2ldns_pkt_ip_payload_witness :
    ∃ q, (pcap2ldns_pkt_ip (fun j => Fin.ofNat j)
            { ts := { tv_sec := 0, tv_usec := 0 }, caplen := 44, len := 44 }).1 = some q
      ∧ (pcap2ldns_pkt_ip (fun j => Fin.ofNat j)
            { ts := { tv_sec := 0, tv_usec := 0 }, caplen := 44, len := 44 }).2.caplen = 44 - 42
      ∧ (∀ j, j < 44 - 42 → q j = (fun j => Fin.ofNat j) (42 + j))
      ∧ (bytes q (pcap2ldns_pkt_ip (fun j => Fin.ofNat j)
            { ts := { tv_sec := 0, tv_usec := 0 }, caplen := 44, len := 44 }).2.caplen).length
          = 44 - 42
      ∧ bytes q (pcap2ldns_pkt_ip (fun j => Fin.ofNat j)
            { ts := { tv_sec := 0, tv_usec := 0 }, caplen := 44, len := 44 }).2.caplen
          = (bytes (fun j => Fin.ofNat j) 44).drop 42 :=
  pcap2ldns_pkt_ip_payload (fun j => Fin.ofNat j)
    { ts := { tv_sec := 0, tv_usec := 0 }, caplen := 44, len := 44 } (by decide) (by decide)

/-- C2: a frame whose captured length is below 42 is not rejected.  The subtraction wraps
in 32 bits and the unsigned test `caplen < 0` never holds, so the call returns a non-null
pointer for every header, and for a captured length of 10 it leaves 4294967264 in `caplen`. -/
theorem pcap2ldns_pkt_ip_truncated_not_rejected :
    (∀ (packet : u_char_ptr) (h : pcap_pkthdr), (pcap2ldns_pkt_ip packet h).1.isSome = true)
      ∧ (pcap2ldns_pkt_ip (fun _ => 0)
          { ts := { tv_sec := 0, tv_usec := 0 }, caplen := 10, len := 10 }).1.isSome = true
      ∧ (pcap2ldns_pkt_ip (fun _ => 0)
          { ts := { tv_sec := 0, tv_usec := 0 }, caplen := 10, len := 10 }).2.caplen
          = 4294967264 := by
  refine ⟨fun packet h => ?_, ?_, ?_⟩
  · rw [pcap2ldns_pkt_ip_fst]
    rfl
  · rw [pcap2ldns_pkt_ip_fst]
    rfl
  · rw [pcap2ldns_pkt_ip_snd]
    decide

/-! ## The record format -/

/-- C3: the line `data2hex` writes for `N` bytes is, for each byte in order, its two
lowercase hexadecimal digits and one space, then a newline; split at the spaces it has
exactly `N` tokens, the token of a byte reading back as that byte.  In the record the
driver writes, the line before each dump is the decimal number of bytes dumped. -/
theorem data2hex_tokens (fp : List Char) (i : Nat) (p : u_char_ptr) (N : Nat)
    (r : u_char_ptr) (M : Nat) (hN : N < 2 ^ 63) (hM : M < 2 ^ 63) :
    data2hex fp p N = fp ++ hex_pairs (bytes p N) ++ ['\n']
      ∧ tokens (hex_pairs (bytes p N)) = (bytes p N).map hex_pair
      ∧ (tokens (hex_pairs (bytes p N))).length = N
      ∧ (∀ b : u_char, (hex_pair b).length = 2
          ∧ (∀ c ∈ hex_pair b, c ∈ lower_hex_digits)
          ∧ parse_hex_token (hex_pair b) = some b)
      ∧ main_emit fp i p N r M
          = fp ++ fmt_zd i ++ ['\n'] ++ Nat.toDigits 10 N ++ ['\n'] ++ data2hex [] p N
              ++ Nat.toDigits 10 M ++ ['\n'] ++ data2hex [] r M
      ∧ parse_decimal (Nat.toDigits 10 N) = some N
      ∧ parse_decimal (Nat.toDigits 10 M) = some M := by
  refine ⟨data2hex_eq fp p N, tokens_aux_hex_pairs _, ?_, ?_, ?_,
    parse_decimal_toDigits N, parse_decimal_toDigits M⟩
  · rw [tokens, tokens_aux_hex_pairs, List.length_map, bytes_length]
  · intro b
    refine ⟨rfl, ?_, parse_hex_token_hex_pair b⟩
    intro c hc
    simp only [hex_pair, List.mem_cons, List.mem_singleton, List.not_mem_nil, or_false] at hc
    rcases hc with rfl | rfl
    · exact (digitChar_hex _ (by omega)).1
    · exact (digitChar_hex _ (Nat.mod_lt _ (by omega))).1
  · rw [main_emit_eq, fmt_zd_eq_toDigits N hN, fmt_zd_eq_toDigits M hM, data2hex_eq,
      data2hex_eq]
    simp [List.append_assoc]

/-- Witness of C3: a query of three bytes and an answer of two. -/
theorem data2hex_tokens_witness :
    data2hex [] (ptr_of [0xab, 0x01, 0xff]) 3
        = [] ++ hex_pairs (bytes (ptr_of [0xab, 0x01, 0xff]) 3) ++ ['\n']
      ∧ tokens (hex_pairs (bytes (ptr_of [0xab, 0x01, 0xff]) 3))
          = (bytes (ptr_of [0xab, 0x01, 0xff]) 3).map hex_pair
      ∧ (tokens (hex_pairs (bytes (ptr_of [0xab, 0x01, 0xff]) 3))).length = 3
      ∧ (∀ b : u_char, (hex_pair b).length = 2
          ∧ (∀ c ∈ hex_pair b, c ∈ lower_hex_digits)
          ∧ parse_hex_token (hex_pair b) = some b)
      ∧ main_emit [] 1 (ptr_of [0xab, 0x01, 0xff]) 3 (ptr_of [0x00, 0x10]) 2
          = [] ++ fmt_zd 1 ++ ['\n'] ++ Nat.toDigits 10 3 ++ ['\n']
              ++ data2hex [] (ptr_of [0xab, 0x01, 0xff]) 3
              ++ Nat.toDigits 10 2 ++ ['\n'] ++ data2hex [] (ptr_of [0x00, 0x10]) 2
      ∧ parse_decimal (Nat.toDigits 10 3) = some 3
      ∧ parse_decimal (Nat.toDigits 10 2) = some 2 :=
  data2hex_tokens [] 1 (ptr_of [0xab, 0x01, 0xff]) 3 (ptr_of [0x00, 0x10]) 2
    (by decide) (by decide)

theorem upper_digitChar_hex (d : Nat) (hd : d < 16) :
    hex_val (Char.toUpper (Nat.digitChar d)) = some d
      ∧ Char.toUpper (Nat.digitChar d) ≠ ' ' ∧ Char.toUpper (Nat.digitChar d) ≠ '\n' := by
  revert d
  decide

theorem upper_digitChar_dec (d : Nat) (hd : d < 10) :
    Char.toUpper (Nat.digitChar d) = Nat.digitChar d := by
  revert d
  decide

theorem digits_of_ten_upper (n : Nat) :
    (digits_of 10 n).map Char.toUpper = digits_of 10 n := by
  induction n using Nat.strong_induction_on with
  | _ n ih =>
    have hm := upper_digitChar_dec (n % 10) (Nat.mod_lt _ (by omega))
    rw [digits_of]
    by_cases h : n < 10
    · simp [h, hm]
    · have hn : ¬ (n < 10 ∨ 10 < 2) := by omega
      rw [if_neg hn, List.map_append, ih (n / 10) (by omega)]
      simp [hm]

theorem toDigits_upper (n : Nat) :
    (Nat.toDigits 10 n).map Char.toUpper = Nat.toDigits 10 n := by
  rw [toDigits_eq_digits_of 10 (by omega)]
  exact digits_of_ten_upper n

theorem hex_pairs_upper_cons (b : u_char) (bs : List u_char) :
    (hex_pairs (b :: bs)).map Char.toUpper
      = Char.toUpper (Nat.digitChar (b.val / 16)) :: Char.toUpper (Nat.digitChar (b.val % 16))
          :: ' ' :: (hex_pairs bs).map Char.toUpper := by
  have hsp : Char.toUpper ' ' = ' ' := by decide
  simp [hex_pairs, hex_pair, hsp]

theorem tokens_aux_upper (bs : List u_char) :
    tokens_aux ((hex_pairs bs).map Char.toUpper) []
      = bs.map (fun b => (hex_pair b).map Char.toUpper) := by
  induction bs with
  | nil => simp [hex_pairs, tokens_aux]
  | cons b bs ih =>
    have h1 := (upper_digitChar_hex (b.val / 16) (by omega)).2.1
    have h2 := (upper_digitChar_hex (b.val % 16) (Nat.mod_lt _ (by omega))).2.1
    rw [hex_pairs_upper_cons]
    simp only [tokens_aux, h1, h2, if_false, if_true, List.map_cons, ih]
    simp [hex_pair]

theorem parse_hex_token_upper (b : u_char) :
    parse_hex_token ((hex_pair b).map Char.toUpper) = some b := by
  obtain ⟨v, hv⟩ := b
  have h1 := (upper_digitChar_hex (v / 16) (by omega)).1
  have h2 := (upper_digitChar_hex (v % 16) (Nat.mod_lt _ (by omega))).1
  have h3 : 16 * (v / 16) + v % 16 = v := Nat.div_add_mod v 16
  simp only [hex_pair, List.map_cons, List.map_nil, parse_hex_token, h1, h2]
  simp [h3, hv]

theorem parse_hex_tokens_upper (bs : List u_char) :
    parse_hex_tokens (bs.map (fun b => (hex_pair b).map Char.toUpper)) = some bs := by
  induction bs with
  | nil => rfl
  | cons b bs ih =>
    rw [List.map_cons, parse_hex_tokens, parse_hex_token_upper, ih]

theorem hex_pairs_upper_no_newline (bs : List u_char) :
    ∀ c ∈ (hex_pairs bs).map Char.toUpper, c ≠ '\n' := by
  induction bs with
  | nil => simp [hex_pairs]
  | cons b bs ih =>
    have h1 := (upper_digitChar_hex (b.val / 16) (by omega)).2.2
    have h2 := (upper_digitChar_hex (b.val % 16) (Nat.mod_lt _ (by omega))).2.2
    rw [hex_pairs_upper_cons]
    intro c hc
    simp only [List.mem_cons] at hc
    rcases hc with rfl | rfl | rfl | hc
    · exact h1
    · exact h2
    · decide
    · exact ih c hc

theorem parse_record_upper (i : Nat) (q : u_char_ptr) (n : Nat) (r : u_char_ptr) (m : Nat)
    (hi : i < 2 ^ 63) (hn : n < 2 ^ 63) (hm : m < 2 ^ 63) :
    parse_record ((main_emit [] i q n r m).map Char.toUpper)
      = some { seq := i, qsize := n, qdata := bytes q n, asize := m, adata := bytes r m } := by
  have hnl : Char.toUpper '\n' = '\n' := by decide
  rw [main_emit_eq, fmt_zd_eq_toDigits i hi, fmt_zd_eq_toDigits n hn, fmt_zd_eq_toDigits m hm]
  simp only [List.nil_append, List.map_append, List.map_cons, List.map_nil, toDigits_upper, hnl,
    parse_record]
  rw [read_line_append _ _ (toDigits_no_newline i)]
  simp only []
  rw [read_line_append _ _ (toDigits_no_newline n)]
  simp only []
  rw [read_line_append _ _ (hex_pairs_upper_no_newline _)]
  simp only []
  rw [read_line_append _ _ (toDigits_no_newline m)]
  simp only []
  rw [read_line_append _ _ (hex_pairs_upper_no_newline _)]
  simp [parse_decimal_toDigits, parse_hex_line, tokens, tokens_aux_upper, parse_hex_tokens_upper]

/-- C4: the five lines written for sequence number `i`, query `q` and answer `a` read back,
line by line (decimal, decimal, hexadecimal pairs, decimal, hexadecimal pairs), as exactly
`i`, `|q|`, `q`, `|a|` and `a`; the same text with its letters in upper case reads back
the same. -/
theorem record_round_trip (i : Nat) (q a : List u_char)
    (hi : i < 2 ^ 63) (hq : q.length < 2 ^ 63) (ha : a.length < 2 ^ 63) :
    parse_record (main_emit [] i (ptr_of q) q.length (ptr_of a) a.length)
        = some { seq := i, qsize := q.length, qdata := q, asize := a.length, adata := a }
      ∧ parse_record ((main_emit [] i (ptr_of q) q.length (ptr_of a) a.length).map Char.toUpper)
        = some { seq := i, qsize := q.length, qdata := q, asize := a.length, adata := a } := by
  rw [parse_record_main_emit i _ _ _ _ hi hq ha, parse_record_upper i _ _ _ _ hi hq ha,
    bytes_ptr_of, bytes_ptr_of]
  exact ⟨rfl, rfl⟩

/-- Witness of C4: record 7 with a query of three bytes and an answer of two. -/
theorem record_round_trip_witness :
    parse_record (main_emit [] 7 (ptr_of [0xab, 0x01, 0xff]) [0xab, 0x01, (0xff : u_char)].length
        (ptr_of [0x00, 0x10]) [0x00, (0x10 : u_char)].length)
        = some { seq := 7, qsize := [0xab, 0x01, (0xff : u_char)].length,
                 qdata := [0xab, 0x01, 0xff],
                 asize := [0x00, (0x10 : u_char)].length, adata := [0x00, 0x10] }
      ∧ parse_record ((main_emit [] 7 (ptr_of [0xab, 0x01, 0xff])
          [0xab, 0x01, (0xff : u_char)].length
          (ptr_of [0x00, 0x10]) [0x00, (0x10 : u_char)].length).map Char.toUpper)
        = some { seq := 7, qsize := [0xab, 0x01, (0xff : u_char)].length,
                 qdata := [0xab, 0x01, 0xff],
                 asize := [0x00, (0x10 : u_char)].length, adata := [0x00, 0x10] } :=
  record_round_trip 7 [0xab, 0x01, 0xff] [0x00, 0x10] (by decide) (by decide) (by decide)

/-- C5: when the transport answers, the iteration appends to the output stream exactly
decimal(`i`), newline, decimal(`|q|`), newline, hex(`q`), decimal(`|a|`), newline, hex(`a`),
where `q` is the payload of the frame, `a` the answer, and hex the line of `data2hex`
(newline included), the same rendering for both. -/
theorem main_loop_body_success_output (ldns_udp_send : Transport) (s : replay_state)
    (f : pcap_frame) (a : udp_answer)
    (hi : s.i < 2 ^ 63)
    (hfit : s.qpkt.data.length + (pcap2ldns_pkt_ip f.x f.h).2.caplen ≤ s.qpkt.capacity)
    (hsend : ldns_udp_send s.sent.length
        (s.qpkt.data ++ bytes (fun j => f.x (DNS_UDP_OFFSET + j)) (pcap2ldns_pkt_ip f.x f.h).2.caplen)
          = some a)
    (hsize : a.size < 2 ^ 63) :
    ∃ s1, main_loop_body ldns_udp_send s f = some s1
      ∧ s1.out = s.out
          ++ Nat.toDigits 10 s.i ++ ['\n']
          ++ Nat.toDigits 10
              (bytes (fun j => f.x (DNS_UDP_OFFSET + j)) (pcap2ldns_pkt_ip f.x f.h).2.caplen).length
          ++ ['\n']
          ++ (fun bs : List u_char => data2hex [] (ptr_of bs) bs.length)
              (bytes (fun j => f.x (DNS_UDP_OFFSET + j)) (pcap2ldns_pkt_ip f.x f.h).2.caplen)
          ++ Nat.toDigits 10 (bytes a.result a.size).length ++ ['\n']
          ++ (fun bs : List u_char => data2hex [] (ptr_of bs) bs.length) (bytes a.result a.size)
      ∧ s1.err = s.err := by
  have hcap : (pcap2ldns_pkt_ip f.x f.h).2.caplen < 2 ^ 63 :=
    Nat.lt_of_lt_of_le (pcap2ldns_pkt_ip_caplen_lt f.x f.h) (by decide)
  simp only [main_loop_body, pcap2ldns_pkt_ip_fst, ldns_buffer_write, if_pos hfit, hsend]
  refine ⟨_, rfl, ?_, rfl⟩
  simp only [data2hex_ptr_of]
  simp only [main_emit_eq, fmt_zd_eq_toDigits _ hi, fmt_zd_eq_toDigits _ hcap,
    fmt_zd_eq_toDigits _ hsize, bytes_length]
  simp [List.append_assoc]

/-- Witness of C5: frame (a) in the first iteration, answered with two bytes. -/
theorem main_loop_body_success_output_witness :
    ∃ s1, main_loop_body answer_first_only (main_init [] [] 53) frame_a = some s1
      ∧ s1.out = (main_init [] [] 53).out
          ++ Nat.toDigits 10 (main_init [] [] 53).i ++ ['\n']
          ++ Nat.toDigits 10
              (bytes (fun j => frame_a.x (DNS_UDP_OFFSET + j))
                (pcap2ldns_pkt_ip frame_a.x frame_a.h).2.caplen).length
          ++ ['\n']
          ++ (fun bs : List u_char => data2hex [] (ptr_of bs) bs.length)
              (bytes (fun j => frame_a.x (DNS_UDP_OFFSET + j))
                (pcap2ldns_pkt_ip frame_a.x frame_a.h).2.caplen)
          ++ Nat.toDigits 10 (bytes sample_answer.result sample_answer.size).length ++ ['\n']
          ++ (fun bs : List u_char => data2hex [] (ptr_of bs) bs.length)
              (bytes sample_answer.result sample_answer.size)
      ∧ s1.err = (main_init [] [] 53).err :=
  main_loop_body_success_output answer_first_only (main_init [] [] 53) frame_a sample_answer
    (by decide) (by decide) rfl (by decide)

/-! ## The replay loop -/

theorem main_emit_append (fp : List Char) (i : Nat) (q : u_char_ptr) (n : Nat)
    (r : u_char_ptr) (m : Nat) :
    main_emit fp i q n r m = fp ++ main_emit [] i q n r m := by
  rw [main_emit_eq, main_emit_eq []]
  simp

theorem main_loop_body_eq (ldns_udp_send : Transport) (s : replay_state) (f : pcap_frame) :
    main_loop_body ldns_udp_send s f
      = if s.qpkt.data.length + (pcap2ldns_pkt_ip f.x f.h).2.caplen ≤ s.qpkt.capacity then
          some { i := (s.i + 1) % SIZE_MAX1,
                 qpkt := { data := [], capacity := s.qpkt.capacity },
                 data := s.data, tolen := s.tolen, timeout := s.timeout,
                 out := match ldns_udp_send s.sent.length (s.qpkt.data ++ frame_payload f) with
                   | some a => main_emit s.out s.i (fun j => f.x (DNS_UDP_OFFSET + j))
                       (pcap2ldns_pkt_ip f.x f.h).2.caplen a.result a.size
                   | none => s.out,
                 err := match ldns_udp_send s.sent.length (s.qpkt.data ++ frame_payload f) with
                   | some _ => s.err
                   | none => s.err ++ msg_failure,
                 sent := s.sent ++ [{ qbin := s.qpkt.data ++ frame_payload f, dst := s.data,
                                      tolen := s.tolen, timeout := s.timeout }] }
        else none := by
  unfold main_loop_body
  simp only [pcap2ldns_pkt_ip_fst, ldns_buffer_write, frame_payload]
  by_cases hfit : s.qpkt.data.length + (pcap2ldns_pkt_ip f.x f.h).2.caplen ≤ s.qpkt.capacity
  · simp only [if_pos hfit]
    cases hs : ldns_udp_send s.sent.length
        (s.qpkt.data ++ bytes (fun j => f.x (DNS_UDP_OFFSET + j))
          (pcap2ldns_pkt_ip f.x f.h).2.caplen) <;>
      simp [ldns_buffer_clear]
  · simp only [if_neg hfit]

theorem main_loop_body_empty (ldns_udp_send : Transport) (s s1 : replay_state) (f : pcap_frame)
    (hbuf : s.qpkt.data = []) (h1 : main_loop_body ldns_udp_send s f = some s1) :
    s1.i = (s.i + 1) % SIZE_MAX1
      ∧ s1.qpkt = s.qpkt
      ∧ s1.out = s.out ++ step_out ldns_udp_send s.i s.sent.length f
      ∧ s1.sent = s.sent ++ [frame_call s f]
      ∧ s1.data = s.data ∧ s1.tolen = s.tolen ∧ s1.timeout = s.timeout
      ∧ (pcap2ldns_pkt_ip f.x f.h).2.caplen ≤ s.qpkt.capacity := by
  rw [main_loop_body_eq] at h1
  split at h1
  · rename_i hfit
    simp only [Option.some.injEq] at h1
    subst h1
    simp only [hbuf, List.nil_append, step_out, frame_call]
    refine ⟨trivial, ?_, ?_, trivial, trivial, trivial, trivial, ?_⟩
    · cases hq : s.qpkt
      simp only [hq] at hbuf
      simp [hbuf]
    · cases hs : ldns_udp_send s.sent.length (frame_payload f) with
      | none => simp
      | some a => simp only []; rw [main_emit_append]
    · simpa [hbuf] using hfit
  · exact absurd h1 (by simp)

theorem main_loop_trace (ldns_udp_send : Transport) :
    ∀ (frames : List pcap_frame) (s : replay_state),
      s.qpkt.data = [] → s.i < SIZE_MAX1 →
      ∃ n, n ≤ frames.length
        ∧ ((main_loop ldns_udp_send s frames).aborted = false → n = frames.length)
        ∧ (main_loop ldns_udp_send s frames).state.i = (s.i + n) % SIZE_MAX1
        ∧ (main_loop ldns_udp_send s frames).state.qpkt = s.qpkt
        ∧ (main_loop ldns_udp_send s frames).state.sent
            = s.sent ++ (frames.take n).map (frame_call s)
        ∧ (∀ f ∈ frames.take n, (pcap2ldns_pkt_ip f.x f.h).2.caplen ≤ s.qpkt.capacity)
        ∧ (main_loop ldns_udp_send s frames).state.out
            = s.out ++ ((List.range n).map (fun j =>
                match frames[j]? with
                | some f => step_out ldns_udp_send ((s.i + j) % SIZE_MAX1) (s.sent.length + j) f
                | none => [])).flatten := by
  intro frames
  induction frames with
  | nil =>
    intro s _ hi
    exact ⟨0, Nat.le_refl _, fun _ => rfl, by simp [main_loop, Nat.mod_eq_of_lt hi], rfl,
      by simp [main_loop], by simp, by simp [main_loop]⟩
  | cons f fs ih =>
    intro s hbuf hi0
    cases hb : main_loop_body ldns_udp_send s f with
    | none =>
      refine ⟨0, Nat.zero_le _, ?_, ?_, ?_, ?_, ?_, ?_⟩ <;>
        simp [main_loop, hb, Nat.mod_eq_of_lt hi0]
    | some s1 =>
      obtain ⟨hi, hq, hout, hsent, hd, htl, hto, hfit⟩ :=
        main_loop_body_empty ldns_udp_send s s1 f hbuf hb
      have hi1 : s1.i < SIZE_MAX1 := by
        rw [hi]
        exact Nat.mod_lt _ (by decide)
      obtain ⟨n, hn, hab, hI, hQ, hS, hF, hO⟩ := ih s1 (by rw [hq]; exact hbuf) hi1
      have hml : main_loop ldns_udp_send s (f :: fs) = main_loop ldns_udp_send s1 fs := by
        simp [main_loop, hb]
      have hcall : frame_call s1 = frame_call s := by
        funext g
        simp [frame_call, hd, htl, hto]
      refine ⟨n + 1, by simpa using hn, ?_, ?_, ?_, ?_, ?_, ?_⟩
      · intro h
        rw [hml] at h
        simp [hab h]
      · rw [hml, hI, hi]
        simp only [SIZE_MAX1]
        omega
      · rw [hml, hQ, hq]
      · rw [hml, hS, hsent, hcall]
        simp
      · intro g hg
        simp only [List.take_succ_cons, List.mem_cons] at hg
        rcases hg with rfl | hg
        · exact hfit
        · rw [← hq]
          exact hF g hg
      · rw [hml, hO, hout, List.range_succ_eq_map]
        simp only [List.map_cons, List.flatten_cons, List.getElem?_cons_zero, List.map_map,
          List.append_assoc, Nat.add_zero, Nat.mod_eq_of_lt hi0]
        congr 2
        congr 1
        apply List.map_congr_left
        intro j _
        simp only [Function.comp, List.getElem?_cons_succ, hsent, List.length_append,
          List.length_singleton]
        have e1 : (s1.i + j) % SIZE_MAX1 = (s.i + (j + 1)) % SIZE_MAX1 := by
          rw [hi]
          simp only [SIZE_MAX1]
          omega
        have e2 : s.sent.length + 1 + j = s.sent.length + (j + 1) := by omega
        rw [e1, e2]

theorem main_loop_spec (ldns_udp_send : Transport) :
    ∀ (frames : List pcap_frame) (s : replay_state),
      s.qpkt.data = [] → s.i + frames.length < SIZE_MAX1 →
      ∃ n, n ≤ frames.length
        ∧ ((main_loop ldns_udp_send s frames).aborted = false → n = frames.length)
        ∧ (main_loop ldns_udp_send s frames).state.i = s.i + n
        ∧ (main_loop ldns_udp_send s frames).state.qpkt = s.qpkt
        ∧ (main_loop ldns_udp_send s frames).state.sent
            = s.sent ++ (frames.take n).map (frame_call s)
        ∧ (main_loop ldns_udp_send s frames).state.out
            = s.out ++ ((List.range n).map (fun j =>
                match frames[j]? with
                | some f => step_out ldns_udp_send (s.i + j) (s.sent.length + j) f
                | none => [])).flatten := by
  intro frames s hbuf hlen
  obtain ⟨n, hn, hab, hI, hQ, hS, _, hO⟩ :=
    main_loop_trace ldns_udp_send frames s hbuf (by omega)
  refine ⟨n, hn, hab, ?_, hQ, hS, ?_⟩
  · rw [hI]
    exact Nat.mod_eq_of_lt (by omega)
  · rw [hO]
    congr 2
    apply List.map_congr_left
    intro j hj
    have hj1 : j < n := List.mem_range.1 hj
    rw [Nat.mod_eq_of_lt (by omega)]

theorem main_loop_count (ldns_udp_send : Transport) :
    ∀ (frames : List pcap_frame) (s : replay_state),
      s.qpkt.data = [] → s.qpkt.capacity = LDNS_MAX_PACKETLEN →
      (main_loop ldns_udp_send s frames).aborted
          = decide ((frames.takeWhile frame_fits).length < frames.length)
        ∧ (main_loop ldns_udp_send s frames).state.sent.length
          = s.sent.length + (frames.takeWhile frame_fits).length := by
  intro frames
  induction frames with
  | nil => intro s _ _; simp [main_loop]
  | cons f fs ih =>
    intro s hbuf hcap
    cases hb : main_loop_body ldns_udp_send s f with
    | none =>
      have hnf : ¬ (pcap2ldns_pkt_ip f.x f.h).2.caplen ≤ LDNS_MAX_PACKETLEN := by
        intro hfit
        rw [main_loop_body_eq, if_pos (by rw [hbuf, hcap]; simpa using hfit)] at hb
        exact absurd hb (by simp)
      have hf : frame_fits f = false := by simp [frame_fits, hnf]
      simp [main_loop, hb, List.takeWhile_cons, hf]
    | some s1 =>
      obtain ⟨_, hq, _, hsent, _, _, _, hfit⟩ :=
        main_loop_body_empty ldns_udp_send s s1 f hbuf hb
      have hf : frame_fits f = true := by
        rw [hcap] at hfit
        simp [frame_fits, hfit]
      obtain ⟨h1, h2⟩ := ih s1 (by rw [hq]; exact hbuf) (by rw [hq]; exact hcap)
      have hml : main_loop ldns_udp_send s (f :: fs) = main_loop ldns_udp_send s1 fs := by
        simp [main_loop, hb]
      have hl : s1.sent.length = s.sent.length + 1 := by
        rw [hsent]
        simp
      have htw : (List.takeWhile frame_fits (f :: fs)).length
          = (List.takeWhile frame_fits fs).length + 1 := by
        simp [List.takeWhile_cons, hf]
      rw [hml, h1, h2, hl, htw, List.length_cons]
      refine ⟨?_, by omega⟩
      simp

theorem main_run_count (log ip_str : List Char) (port : Nat) (ldns_udp_send : Transport)
    (capture : List pcap_frame) :
    (main_run log ip_str port ldns_udp_send capture).aborted
        = decide ((capture.takeWhile frame_fits).length < capture.length)
      ∧ (main_run log ip_str port ldns_udp_send capture).state.sent.length
        = (capture.takeWhile frame_fits).length := by
  obtain ⟨h1, h2⟩ :=
    main_loop_count ldns_udp_send capture (main_init log ip_str port) rfl rfl
  refine ⟨h1, ?_⟩
  rw [main_run, h2]
  show 0 + _ = _
  omega

theorem takeWhile_length_eq_of_all (capture : List pcap_frame)
    (hall : ∀ f ∈ capture, frame_fits f = true) :
    (capture.takeWhile frame_fits).length = capture.length := by
  have : capture.takeWhile frame_fits = capture := by
    rw [List.takeWhile_eq_self_iff]
    exact hall
  rw [this]

theorem flatten_filter_isSome (r : Nat → Option (List Char)) (l : List Nat) :
    (l.map (fun k => (r k).getD [])).flatten
      = ((l.filter (fun k => (r k).isSome)).map (fun k => (r k).getD [])).flatten := by
  induction l with
  | nil => rfl
  | cons k ks ih =>
    cases hk : r k with
    | none => simp [List.filter_cons, hk, ih]
    | some t => simp [List.filter_cons, hk, ih]

theorem step_out_eq_frame_record (ldns_udp_send : Transport) (capture : List pcap_frame)
    (j : Nat) :
    (match capture[j]? with
      | some f => step_out ldns_udp_send (1 + j) (0 + j) f
      | none => [])
      = (frame_record ldns_udp_send capture (j + 1)).getD [] := by
  simp only [frame_record, Nat.add_sub_cancel, Nat.zero_add]
  cases hf : capture[j]? with
  | none => rfl
  | some f =>
    simp only [step_out]
    have e : 1 + j = j + 1 := by omega
    cases hs : ldns_udp_send j (frame_payload f) with
    | none => rfl
    | some a => simp [e]

theorem frame_record_first_line (ldns_udp_send : Transport) (capture : List pcap_frame)
    (k : Nat) (t : List Char) (hk : k < 2 ^ 63)
    (ht : frame_record ldns_udp_send capture k = some t) :
    ∃ rest, t = Nat.toDigits 10 k ++ '\n' :: rest := by
  simp only [frame_record] at ht
  cases hf : capture[k - 1]? with
  | none => simp [hf] at ht
  | some f =>
    simp only [hf] at ht
    cases hs : ldns_udp_send (k - 1) (frame_payload f) with
    | none => simp [hs] at ht
    | some a =>
      simp only [hs, Option.some.injEq] at ht
      rw [main_emit_eq, fmt_zd_eq_toDigits k hk] at ht
      exact ⟨_, by rw [← ht, List.nil_append]⟩

/-- C6: the counter is 1 when the loop is entered and advances by one for each frame pulled,
whether or not the frame gets a record.  The number `n` of frames processed is the length
of the longest prefix of the capture whose payloads fit the query buffer: all of the
capture when every payload fits, and then the run is not stopped early.  The counter ends
at `n + 1`, and the output is the header followed by the records of the frames that have
one, in increasing order of their ordinal `k`; the record of the `k`-th frame starts with
the line decimal(`k`). -/
theorem main_run_sequence_numbers (log ip_str : List Char) (port : Nat)
    (ldns_udp_send : Transport) (capture : List pcap_frame)
    (hlen : capture.length < 2 ^ 63) :
    (main_init log ip_str port).i = 1
      ∧ ∃ n, n ≤ capture.length
        ∧ ((main_run log ip_str port ldns_udp_send capture).aborted = false
            → n = capture.length)
        ∧ n = (capture.takeWhile frame_fits).length
        ∧ (main_run log ip_str port ldns_udp_send capture).aborted
            = decide (n < capture.length)
        ∧ ((∀ f ∈ capture, frame_fits f = true) →
            n = capture.length
              ∧ (main_run log ip_str port ldns_udp_send capture).aborted = false)
        ∧ (main_run log ip_str port ldns_udp_send capture).state.i = n + 1
        ∧ (main_run log ip_str port ldns_udp_send capture).state.out
            = main_header log ip_str port
              ++ (((List.range' 1 n).filter
                    (fun k => (frame_record ldns_udp_send capture k).isSome)).map
                  (fun k => (frame_record ldns_udp_send capture k).getD [])).flatten
        ∧ ((List.range' 1 n).filter
              (fun k => (frame_record ldns_udp_send capture k).isSome)).Pairwise (· < ·)
        ∧ ∀ k t, k ≤ n → frame_record ldns_udp_send capture k = some t →
            ∃ rest, t = Nat.toDigits 10 k ++ '\n' :: rest := by
  refine ⟨rfl, ?_⟩
  have hlen1 : (main_init log ip_str port).i + capture.length < SIZE_MAX1 := by
    simp only [main_init, SIZE_MAX1]
    omega
  obtain ⟨n, hn, hab, hI, _, hS, hO⟩ :=
    main_loop_spec ldns_udp_send capture (main_init log ip_str port) rfl hlen1
  obtain ⟨hc1, hc2⟩ := main_run_count log ip_str port ldns_udp_send capture
  have hnk : n = (capture.takeWhile frame_fits).length := by
    rw [← hc2, main_run, hS]
    simp only [List.length_append, List.length_map, List.length_take]
    show n = 0 + min n capture.length
    omega
  have hdec : (main_run log ip_str port ldns_udp_send capture).aborted
      = decide (n < capture.length) := by
    rw [hc1, ← hnk]
  refine ⟨n, hn, hab, hnk, hdec, ?_, ?_, ?_, ?_, ?_⟩
  · intro hall
    have hfull : n = capture.length := by
      rw [hnk]
      exact takeWhile_length_eq_of_all capture hall
    refine ⟨hfull, ?_⟩
    rw [hdec, hfull]
    simp
  · rw [main_run, hI]
    simp only [main_init]
    omega
  · rw [main_run, hO]
    have e : (main_init log ip_str port).out = main_header log ip_str port := rfl
    have e1 : (main_init log ip_str port).i = 1 := rfl
    have e2 : (main_init log ip_str port).sent.length = 0 := rfl
    rw [e, e1, e2, ← flatten_filter_isSome, List.range'_eq_map_range, List.map_map]
    congr 2
    apply List.map_congr_left
    intro j _
    rw [step_out_eq_frame_record]
    simp [Function.comp, Nat.add_comm]
  · exact List.Pairwise.sublist (List.filter_sublist _) (List.pairwise_lt_range' 1 n)
  · intro k t hk ht
    exact frame_record_first_line ldns_udp_send capture k t (by omega) ht

/-- Witness of C6: the capture (a), (b), (c) with a transport answering the first call only. -/
theorem main_run_sequence_numbers_witness :
    (main_init [] [] 53).i = 1
      ∧ ∃ n, n ≤ [frame_a, frame_b, frame_c].length
        ∧ ((main_run [] [] 53 answer_first_only [frame_a, frame_b, frame_c]).aborted = false
            → n = [frame_a, frame_b, frame_c].length)
        ∧ n = ([frame_a, frame_b, frame_c].takeWhile frame_fits).length
        ∧ (main_run [] [] 53 answer_first_only [frame_a, frame_b, frame_c]).aborted
            = decide (n < [frame_a, frame_b, frame_c].length)
        ∧ ((∀ f ∈ [frame_a, frame_b, frame_c], frame_fits f = true) →
            n = [frame_a, frame_b, frame_c].length
              ∧ (main_run [] [] 53 answer_first_only
                  [frame_a, frame_b, frame_c]).aborted = false)
        ∧ (main_run [] [] 53 answer_first_only [frame_a, frame_b, frame_c]).state.i = n + 1
        ∧ (main_run [] [] 53 answer_first_only [frame_a, frame_b, frame_c]).state.out
            = main_header [] [] 53
              ++ (((List.range' 1 n).filter
                    (fun k => (frame_record answer_first_only
                      [frame_a, frame_b, frame_c] k).isSome)).map
                  (fun k => (frame_record answer_first_only
                      [frame_a, frame_b, frame_c] k).getD [])).flatten
        ∧ ((List.range' 1 n).filter
              (fun k => (frame_record answer_first_only
                [frame_a, frame_b, frame_c] k).isSome)).Pairwise (· < ·)
        ∧ ∀ k t, k ≤ n → frame_record answer_first_only [frame_a, frame_b, frame_c] k = some t →
            ∃ rest, t = Nat.toDigits 10 k ++ '\n' :: rest :=
  main_run_sequence_numbers [] [] 53 answer_first_only [frame_a, frame_b, frame_c] (by decide)

theorem main_loop_body_streams (ldns_udp_send : Transport) (s s' : replay_state)
    (f : pcap_frame) (hi : s.i = s'.i) (hq : s.qpkt = s'.qpkt) (hs : s.sent = s'.sent)
    (hc : s.data = s'.data ∧ s.tolen = s'.tolen ∧ s.timeout = s'.timeout) :
    (main_loop_body ldns_udp_send s f = none ∧ main_loop_body ldns_udp_send s' f = none)
      ∨ ∃ t t' dout derr, main_loop_body ldns_udp_send s f = some t
          ∧ main_loop_body ldns_udp_send s' f = some t'
          ∧ t.i = t'.i ∧ t.qpkt = t'.qpkt ∧ t.sent = t'.sent
          ∧ (t.data = t'.data ∧ t.tolen = t'.tolen ∧ t.timeout = t'.timeout)
          ∧ t.out = s.out ++ dout ∧ t'.out = s'.out ++ dout
          ∧ t.err = s.err ++ derr ∧ t'.err = s'.err ++ derr := by
  obtain ⟨hc1, hc2, hc3⟩ := hc
  rw [main_loop_body_eq, main_loop_body_eq, ← hi, ← hq, ← hs, ← hc1, ← hc2, ← hc3]
  by_cases hfit : s.qpkt.data.length + (pcap2ldns_pkt_ip f.x f.h).2.caplen ≤ s.qpkt.capacity
  · right
    simp only [if_pos hfit]
    cases hsend : ldns_udp_send s.sent.length (s.qpkt.data ++ frame_payload f) with
    | none =>
      exact ⟨_, _, [], msg_failure, rfl, rfl, rfl, rfl, rfl, ⟨rfl, rfl, rfl⟩, by simp, by simp,
        rfl, rfl⟩
    | some a =>
      refine ⟨_, _, main_emit [] s.i (fun j => f.x (DNS_UDP_OFFSET + j))
        (pcap2ldns_pkt_ip f.x f.h).2.caplen a.result a.size, [], rfl, rfl, rfl, rfl, rfl,
        ⟨rfl, rfl, rfl⟩, ?_, ?_, by simp, by simp⟩
      · exact main_emit_append _ _ _ _ _ _
      · exact main_emit_append _ _ _ _ _ _
  · left
    simp only [if_neg hfit, and_self]

theorem main_loop_streams (ldns_udp_send : Transport) :
    ∀ (frames : List pcap_frame) (s s' : replay_state),
      s.i = s'.i → s.qpkt = s'.qpkt → s.sent = s'.sent →
      (s.data = s'.data ∧ s.tolen = s'.tolen ∧ s.timeout = s'.timeout) →
      ∃ dout derr,
        (main_loop ldns_udp_send s frames).state.out = s.out ++ dout
          ∧ (main_loop ldns_udp_send s' frames).state.out = s'.out ++ dout
          ∧ (main_loop ldns_udp_send s frames).state.err = s.err ++ derr
          ∧ (main_loop ldns_udp_send s' frames).state.err = s'.err ++ derr
          ∧ (main_loop ldns_udp_send s frames).aborted
              = (main_loop ldns_udp_send s' frames).aborted
          ∧ (main_loop ldns_udp_send s frames).state.i
              = (main_loop ldns_udp_send s' frames).state.i
          ∧ (main_loop ldns_udp_send s frames).state.sent
              = (main_loop ldns_udp_send s' frames).state.sent := by
  intro frames
  induction frames with
  | nil =>
    intro s s' hi _ hs _
    exact ⟨[], [], by simp [main_loop], by simp [main_loop], by simp [main_loop],
      by simp [main_loop], rfl, hi, hs⟩
  | cons f fs ih =>
    intro s s' hi hq hs hc
    rcases main_loop_body_streams ldns_udp_send s s' f hi hq hs hc with
      ⟨h1, h2⟩ | ⟨t, t', d0, e0, h1, h2, ti, tq, ts, tc, to1, to2, te1, te2⟩
    · exact ⟨[], [], by simp [main_loop, h1], by simp [main_loop, h2], by simp [main_loop, h1],
        by simp [main_loop, h2], by simp [main_loop, h1, h2], by simp [main_loop, h1, h2, hi],
        by simp [main_loop, h1, h2, hs]⟩
    · obtain ⟨d, e, o1, o2, e1, e2, ab, fi, fs1⟩ := ih t t' ti tq ts tc
      have m1 : main_loop ldns_udp_send s (f :: fs) = main_loop ldns_udp_send t fs := by
        simp [main_loop, h1]
      have m2 : main_loop ldns_udp_send s' (f :: fs) = main_loop ldns_udp_send t' fs := by
        simp [main_loop, h2]
      rw [m1, m2]
      refine ⟨d0 ++ d, e0 ++ e, ?_, ?_, ?_, ?_, ab, fi, fs1⟩
      · rw [o1, to1, List.append_assoc]
      · rw [o2, to2, List.append_assoc]
      · rw [e1, te1, List.append_assoc]
      · rw [e2, te2, List.append_assoc]

/-- C7: when the transport call for a frame does not return success, the iteration leaves
the output stream as it was, appends the one line `Failure to send packet` to the error
stream and advances the counter, and the loop goes on with the later frames.  What the
later frames append to both streams, the counter they end with and the datagrams they send
are the same as from the state any other outcome of this call would have left. -/
theorem main_loop_body_transport_failure (ldns_udp_send : Transport) (s : replay_state)
    (f : pcap_frame) (rest : List pcap_frame)
    (hfit : s.qpkt.data.length + (pcap2ldns_pkt_ip f.x f.h).2.caplen ≤ s.qpkt.capacity)
    (hfail : ldns_udp_send s.sent.length (s.qpkt.data ++ frame_payload f) = none) :
    ∃ s1, main_loop_body ldns_udp_send s f = some s1
      ∧ s1.out = s.out
      ∧ s1.err = s.err ++ msg_failure
      ∧ msg_failure.count '\n' = 1 ∧ msg_failure.getLast? = some '\n'
      ∧ s1.i = (s.i + 1) % SIZE_MAX1
      ∧ main_loop ldns_udp_send s (f :: rest) = main_loop ldns_udp_send s1 rest
      ∧ ∀ (other : Transport) (s2 : replay_state), main_loop_body other s f = some s2 →
          ∃ dout derr,
            (main_loop ldns_udp_send s1 rest).state.out = s1.out ++ dout
              ∧ (main_loop ldns_udp_send s2 rest).state.out = s2.out ++ dout
              ∧ (main_loop ldns_udp_send s1 rest).state.err = s1.err ++ derr
              ∧ (main_loop ldns_udp_send s2 rest).state.err = s2.err ++ derr
              ∧ (main_loop ldns_udp_send s1 rest).aborted
                  = (main_loop ldns_udp_send s2 rest).aborted
              ∧ (main_loop ldns_udp_send s1 rest).state.i
                  = (main_loop ldns_udp_send s2 rest).state.i
              ∧ (main_loop ldns_udp_send s1 rest).state.sent
                  = (main_loop ldns_udp_send s2 rest).state.sent := by
  have hb := main_loop_body_eq ldns_udp_send s f
  rw [if_pos hfit, hfail] at hb
  refine ⟨_, hb, rfl, rfl, by decide, by decide, rfl, by simp [main_loop, hb], ?_⟩
  intro other s2 h2
  rw [main_loop_body_eq, if_pos hfit] at h2
  simp only [Option.some.injEq] at h2
  subst h2
  exact main_loop_streams ldns_udp_send rest _ _ rfl rfl rfl ⟨rfl, rfl, rfl⟩

/-- Witness of C7: frame (c) after frame (a), with a transport answering the first call only. -/
theorem main_loop_body_transport_failure_witness :
    ∃ s1, main_loop_body answer_first_only
        sample_state frame_c = some s1
      ∧ s1.out = []
      ∧ s1.err = [] ++ msg_failure
      ∧ msg_failure.count '\n' = 1 ∧ msg_failure.getLast? = some '\n'
      ∧ s1.i = (2 + 1) % SIZE_MAX1
      ∧ main_loop answer_first_only sample_state (frame_c :: [frame_a])
          = main_loop answer_first_only s1 [frame_a]
      ∧ ∀ (other : Transport) (s2 : replay_state),
          main_loop_body other sample_state frame_c = some s2 →
          ∃ dout derr,
            (main_loop answer_first_only s1 [frame_a]).state.out = s1.out ++ dout
              ∧ (main_loop answer_first_only s2 [frame_a]).state.out = s2.out ++ dout
              ∧ (main_loop answer_first_only s1 [frame_a]).state.err = s1.err ++ derr
              ∧ (main_loop answer_first_only s2 [frame_a]).state.err = s2.err ++ derr
              ∧ (main_loop answer_first_only s1 [frame_a]).aborted
                  = (main_loop answer_first_only s2 [frame_a]).aborted
              ∧ (main_loop answer_first_only s1 [frame_a]).state.i
                  = (main_loop answer_first_only s2 [frame_a]).state.i
              ∧ (main_loop answer_first_only s1 [frame_a]).state.sent
                  = (main_loop answer_first_only s2 [frame_a]).state.sent :=
  main_loop_body_transport_failure answer_first_only sample_state frame_c [frame_a]
    (by decide) rfl

/-- C8: the loop does not drop the ARP frame of the capture (a), (b), (c).  It never calls
`pcap2ldns_pkt`, so whatever the transport does, three datagrams are sent, the second
made of the bytes of the ARP frame past offset 42.  When the transport answers all but the
query of (c), the output holds two records, numbered 1 and 2, and the error stream one
line; when it answers (a) only, both lines of the error stream are transport failures. -/
theorem main_run_arp_frame_is_replayed :
    frame_ether_type frame_b.x = ETHERTYPE_ARP
      ∧ (∀ (log ip_str : List Char) (port : Nat) (ldns_udp_send : Transport),
          (main_run log ip_str port ldns_udp_send [frame_a, frame_b, frame_c]).state.sent.map
              udp_call.qbin
            = [[0x12, 0x34, 0x01, 0x00], [0x00, 0x00], [0x56, 0x78, 0x01, 0x00]])
      ∧ (main_run [] [] 53 answer_all_but_c [frame_a, frame_b, frame_c]).state.out
          = main_header [] [] 53
            ++ "1\n4\n12 34 01 00 \n2\nca fe \n".toList
            ++ "2\n2\n00 00 \n2\nca fe \n".toList
      ∧ (main_run [] [] 53 answer_all_but_c [frame_a, frame_b, frame_c]).state.err
          = msg_failure
      ∧ (main_run [] [] 53 answer_first_only [frame_a, frame_b, frame_c]).state.out
          = main_header [] [] 53 ++ "1\n4\n12 34 01 00 \n2\nca fe \n".toList
      ∧ (main_run [] [] 53 answer_first_only [frame_a, frame_b, frame_c]).state.err
          = msg_failure ++ msg_failure := by
  refine ⟨by decide, ?_, by decide, by decide, by decide, by decide⟩
  intro log ip_str port ldns_udp_send
  have ha : (pcap2ldns_pkt_ip frame_a.x frame_a.h).2.caplen = 4 := by decide
  have hb : (pcap2ldns_pkt_ip frame_b.x frame_b.h).2.caplen = 2 := by decide
  have hc : (pcap2ldns_pkt_ip frame_c.x frame_c.h).2.caplen = 4 := by decide
  have pa : frame_payload frame_a = [0x12, 0x34, 0x01, 0x00] := by decide
  have pb : frame_payload frame_b = [0x00, 0x00] := by decide
  have pc : frame_payload frame_c = [0x56, 0x78, 0x01, 0x00] := by decide
  simp [main_run, main_loop, main_loop_body_eq, main_init, ldns_buffer_new, ha, hb, hc, pa, pb,
    pc, LDNS_MAX_PACKETLEN]

/-! ## The link-type switch -/

/-- C9: `pcap2ldns_pkt` returns for every value of the type field it reads.  For 0x0800 it
returns what `pcap2ldns_pkt_ip` returns on the same frame and writes nothing; for 0x86dd it
returns `NULL` and writes nothing; for 0x0806 it returns `NULL` and writes the one line
`ARP pkt, dropping`; for every other value it returns `NULL` and writes the one line
`Not IP pkt, dropping`. -/
theorem pcap2ldns_pkt_cases (hdr_ether_type : pcap_pkthdr → Nat) (err : List Char)
    (packet : u_char_ptr) (h : pcap_pkthdr) :
    (hdr_ether_type h = 0x0800 →
        pcap2ldns_pkt hdr_ether_type err packet h
          = ((pcap2ldns_pkt_ip packet h).1, (pcap2ldns_pkt_ip packet h).2, err))
      ∧ (hdr_ether_type h = 0x86dd →
        pcap2ldns_pkt hdr_ether_type err packet h = (none, h, err))
      ∧ (hdr_ether_type h = 0x0806 →
        pcap2ldns_pkt hdr_ether_type err packet h = (none, h, err ++ msg_arp))
      ∧ (hdr_ether_type h ≠ 0x0800 → hdr_ether_type h ≠ 0x86dd → hdr_ether_type h ≠ 0x0806 →
        pcap2ldns_pkt hdr_ether_type err packet h = (none, h, err ++ msg_not_ip))
      ∧ msg_arp.count '\n' = 1 ∧ msg_arp.getLast? = some '\n'
      ∧ msg_not_ip.count '\n' = 1 ∧ msg_not_ip.getLast? = some '\n'
      ∧ msg_arp ≠ msg_not_ip := by
  refine ⟨?_, ?_, ?_, ?_, by decide, by decide, by decide, by decide, by decide⟩
  · intro ht
    simp [pcap2ldns_pkt, ht, ETHERTYPE_IP]
  · intro ht
    simp [pcap2ldns_pkt, ht, ETHERTYPE_IP, ETHERTYPE_IPV6]
  · intro ht
    simp [pcap2ldns_pkt, ht, ETHERTYPE_IP, ETHERTYPE_IPV6, ETHERTYPE_ARP]
  · intro h1 h2 h3
    simp [pcap2ldns_pkt, h1, h2, h3, ETHERTYPE_IP, ETHERTYPE_IPV6, ETHERTYPE_ARP]

/-- Witness of C9: the four cases of the switch on frame (a), the type field read being
0x0800, 0x86dd, 0x0806 and 0x1234. -/
theorem pcap2ldns_pkt_cases_witness :
    pcap2ldns_pkt (fun _ => 0x0800) [] frame_a.x frame_a.h
        = ((pcap2ldns_pkt_ip frame_a.x frame_a.h).1, (pcap2ldns_pkt_ip frame_a.x frame_a.h).2, [])
      ∧ pcap2ldns_pkt (fun _ => 0x86dd) [] frame_a.x frame_a.h = (none, frame_a.h, [])
      ∧ pcap2ldns_pkt (fun _ => 0x0806) [] frame_a.x frame_a.h
          = (none, frame_a.h, [] ++ msg_arp)
      ∧ pcap2ldns_pkt (fun _ => 0x1234) [] frame_a.x frame_a.h
          = (none, frame_a.h, [] ++ msg_not_ip) :=
  ⟨(pcap2ldns_pkt_cases (fun _ => 0x0800) [] frame_a.x frame_a.h).1 rfl,
   (pcap2ldns_pkt_cases (fun _ => 0x86dd) [] frame_a.x frame_a.h).2.1 rfl,
   (pcap2ldns_pkt_cases (fun _ => 0x0806) [] frame_a.x frame_a.h).2.2.1 rfl,
   (pcap2ldns_pkt_cases (fun _ => 0x1234) [] frame_a.x frame_a.h).2.2.2.1
     (by decide) (by decide) (by decide)⟩

/-- C10: the type field `pcap2ldns_pkt` switches on is not read from the frame.  For every
layout of the capture header, two packets presented with the same header get the same
diagnostic and the same null or non-null result, whatever their bytes.  On a little-endian
LP64 platform frame (a), whose EtherType bytes are `08 00`, is dropped as not IP, while the
same frame under a header whose microsecond field has 0x0800 in bits 32 to 47 is passed to
`pcap2ldns_pkt_ip`. -/
theorem pcap2ldns_pkt_ignores_frame_bytes :
    (∀ (hdr_ether_type : pcap_pkthdr → Nat) (err : List Char) (p1 p2 : u_char_ptr)
        (h : pcap_pkthdr),
        (pcap2ldns_pkt hdr_ether_type err p1 h).2.2 = (pcap2ldns_pkt hdr_ether_type err p2 h).2.2
          ∧ (pcap2ldns_pkt hdr_ether_type err p1 h).1.isSome
              = (pcap2ldns_pkt hdr_ether_type err p2 h).1.isSome)
      ∧ frame_ether_type frame_a.x = ETHERTYPE_IP
      ∧ (pcap2ldns_pkt hdr_ether_type_lp64 [] frame_a.x frame_a.h).1.isSome = false
      ∧ (pcap2ldns_pkt hdr_ether_type_lp64 [] frame_a.x frame_a.h).2.2 = msg_not_ip
      ∧ (pcap2ldns_pkt hdr_ether_type_lp64 [] frame_a.x
          { ts := { tv_sec := 1, tv_usec := 0x0800 * 2 ^ 32 }, caplen := 46, len := 46 }).1.isSome
          = true := by
  refine ⟨?_, by decide, by decide, by decide, by decide⟩
  intro hdr_ether_type err p1 p2 h
  simp only [pcap2ldns_pkt, pcap2ldns_pkt_ip_fst]
  split_ifs <;> simp

/-! ## The output stream as a whole -/

theorem text_lines_aux_line (l : List Char) :
    ∀ (cur rest : List Char), (∀ c ∈ l, c ≠ '\n') →
      text_lines_aux (l ++ '\n' :: rest) cur = (cur.reverse ++ l) :: text_lines_aux rest [] := by
  induction l with
  | nil => intro cur rest _; simp [text_lines_aux]
  | cons c cs ih =>
    intro cur rest hl
    have hc : c ≠ '\n' := hl c (List.mem_cons_self _ _)
    have ih1 := ih (c :: cur) rest (fun d hd => hl d (List.mem_cons_of_mem _ hd))
    have e : text_lines_aux (c :: cs ++ '\n' :: rest) cur
        = text_lines_aux (cs ++ '\n' :: rest) (c :: cur) := by
      simp [text_lines_aux, hc]
    rw [e, ih1]
    simp

theorem text_lines_line (l rest : List Char) (hl : ∀ c ∈ l, c ≠ '\n') :
    text_lines (l ++ '\n' :: rest) = l :: text_lines rest := by
  rw [text_lines, text_lines_aux_line l [] rest hl]
  simp [text_lines]

theorem head?_ne_of_forall_ne (l : List Char) (x : Char) (h : ∀ c ∈ l, c ≠ x) :
    l.head? ≠ some x := by
  cases l with
  | nil => simp
  | cons c cs =>
    simp only [List.head?_cons, ne_eq, Option.some.injEq]
    exact h c (List.mem_cons_self _ _)

theorem digitChar_dec_plain (d : Nat) (hd : d < 10) :
    Nat.digitChar d ≠ ';' ∧ Nat.digitChar d ≠ '\n' := by
  revert d
  decide

theorem digitChar_hex_plain (d : Nat) (hd : d < 16) :
    Nat.digitChar d ≠ ';' ∧ Nat.digitChar d ≠ '\n' ∧ Nat.digitChar d ≠ ' ' := by
  revert d
  decide

theorem digits_of_ten_plain (n : Nat) :
    ∀ c ∈ digits_of 10 n, c ≠ ';' ∧ c ≠ '\n' := by
  induction n using Nat.strong_induction_on with
  | _ n ih =>
    have hm := digitChar_dec_plain (n % 10) (Nat.mod_lt _ (by omega))
    rw [digits_of]
    by_cases h : n < 10
    · intro c hc
      simp only [h, true_or, if_true, List.mem_singleton] at hc
      rw [hc]
      exact hm
    · have hn : ¬ (n < 10 ∨ 10 < 2) := by omega
      rw [if_neg hn]
      intro c hc
      rcases List.mem_append.1 hc with hc | hc
      · exact ih (n / 10) (by omega) c hc
      · simp only [List.mem_singleton] at hc
        rw [hc]
        exact hm

theorem toDigits_plain (n : Nat) :
    (∀ c ∈ Nat.toDigits 10 n, c ≠ ';' ∧ c ≠ '\n') ∧ Nat.toDigits 10 n ≠ [] := by
  rw [toDigits_eq_digits_of 10 (by omega)]
  exact ⟨digits_of_ten_plain n, (digits_of_ten n).2.1⟩

theorem fmt_zd_plain (v : Nat) :
    (∀ c ∈ fmt_zd v, c ≠ ';' ∧ c ≠ '\n') ∧ fmt_zd v ≠ [] := by
  simp only [fmt_zd]
  split
  · exact toDigits_plain _
  · refine ⟨?_, by simp⟩
    intro c hc
    simp only [List.mem_cons] at hc
    rcases hc with rfl | hc
    · decide
    · exact (toDigits_plain _).1 c hc

theorem hex_pairs_plain (bs : List u_char) :
    ∀ c ∈ hex_pairs bs, c ≠ ';' ∧ c ≠ '\n' := by
  induction bs with
  | nil => simp [hex_pairs]
  | cons b bs ih =>
    have h1 := digitChar_hex_plain (b.val / 16) (by omega)
    have h2 := digitChar_hex_plain (b.val % 16) (Nat.mod_lt _ (by omega))
    have hcons : hex_pairs (b :: bs)
        = Nat.digitChar (b.val / 16) :: Nat.digitChar (b.val % 16) :: ' ' :: hex_pairs bs := by
      simp [hex_pairs, hex_pair]
    rw [hcons]
    intro c hc
    simp only [List.mem_cons] at hc
    rcases hc with rfl | rfl | rfl | hc
    · exact ⟨h1.1, h1.2.1⟩
    · exact ⟨h2.1, h2.2.1⟩
    · decide
    · exact ih c hc

theorem count_newline_eq_zero (l : List Char) (hl : ∀ c ∈ l, c ≠ '\n') :
    l.count '\n' = 0 := by
  rw [List.count_eq_zero]
  intro hmem
  exact hl _ hmem rfl

theorem main_emit_lines (i : Nat) (q : u_char_ptr) (n : Nat) (r : u_char_ptr) (m : Nat)
    (rest : List Char) :
    text_lines (main_emit [] i q n r m ++ rest)
      = [fmt_zd i, fmt_zd n, hex_pairs (bytes q n), fmt_zd m, hex_pairs (bytes r m)]
          ++ text_lines rest := by
  rw [main_emit_eq]
  simp only [List.nil_append, List.append_assoc, List.cons_append]
  rw [text_lines_line _ _ (fun c hc => ((fmt_zd_plain i).1 c hc).2),
    text_lines_line _ _ (fun c hc => ((fmt_zd_plain n).1 c hc).2),
    text_lines_line _ _ (fun c hc => (hex_pairs_plain _ c hc).2),
    text_lines_line _ _ (fun c hc => ((fmt_zd_plain m).1 c hc).2),
    text_lines_line _ _ (fun c hc => (hex_pairs_plain _ c hc).2)]

theorem main_emit_newlines (i : Nat) (q : u_char_ptr) (n : Nat) (r : u_char_ptr) (m : Nat) :
    (main_emit [] i q n r m).count '\n' = 5
      ∧ (main_emit [] i q n r m).getLast? = some '\n' := by
  have hlast : (main_emit [] i q n r m).getLast? = some '\n' := by
    simp only [main_emit, data2hex]
    simp
  refine ⟨?_, hlast⟩
  rw [main_emit_eq]
  have c1 := count_newline_eq_zero _ (fun c hc => ((fmt_zd_plain i).1 c hc).2)
  have c2 := count_newline_eq_zero _ (fun c hc => ((fmt_zd_plain n).1 c hc).2)
  have c3 := count_newline_eq_zero _ (fun c hc => (hex_pairs_plain (bytes q n) c hc).2)
  have c4 := count_newline_eq_zero _ (fun c hc => ((fmt_zd_plain m).1 c hc).2)
  have c5 := count_newline_eq_zero _ (fun c hc => (hex_pairs_plain (bytes r m) c hc).2)
  simp only [List.nil_append, List.count_append, List.count_cons, List.count_nil, c1, c2, c3,
    c4, c5]
  simp

theorem record_at_some (ldns_udp_send : Transport) (capture : List pcap_frame) (j : Nat)
    (t : List Char) (ht : record_at ldns_udp_send capture j = some t) :
    ∃ f a, capture[j]? = some f ∧ ldns_udp_send j (frame_payload f) = some a
      ∧ t = main_emit [] ((1 + j) % SIZE_MAX1) (fun k => f.x (DNS_UDP_OFFSET + k))
          (pcap2ldns_pkt_ip f.x f.h).2.caplen a.result a.size := by
  simp only [record_at] at ht
  cases hf : capture[j]? with
  | none => simp [hf] at ht
  | some f =>
    simp only [hf] at ht
    cases hs : ldns_udp_send j (frame_payload f) with
    | none => simp [hs] at ht
    | some a =>
      simp only [hs, Option.some.injEq] at ht
      exact ⟨f, a, rfl, hs, ht.symm⟩

theorem record_at_isSome (ldns_udp_send : Transport) (capture : List pcap_frame) (j : Nat) :
    (record_at ldns_udp_send capture j).isSome = true
      ↔ ∃ f, capture[j]? = some f ∧ (ldns_udp_send j (frame_payload f)).isSome = true := by
  simp only [record_at]
  cases hf : capture[j]? with
  | none => simp
  | some f =>
    cases hs : ldns_udp_send j (frame_payload f) with
    | none => simp [hs]
    | some a => simp [hs]

theorem step_out_eq_record_at (ldns_udp_send : Transport) (capture : List pcap_frame)
    (j : Nat) :
    (match capture[j]? with
      | some f => step_out ldns_udp_send ((1 + j) % SIZE_MAX1) (0 + j) f
      | none => [])
      = (record_at ldns_udp_send capture j).getD [] := by
  simp only [record_at, Nat.zero_add]
  cases hf : capture[j]? with
  | none => rfl
  | some f =>
    simp only [step_out]
    cases hs : ldns_udp_send j (frame_payload f) with
    | none => rfl
    | some a => rfl

theorem flatten_map_getD (r : Nat → Option (List Char)) (l : List Nat) :
    (l.map (fun k => (r k).getD [])).flatten = (l.filterMap r).flatten := by
  induction l with
  | nil => rfl
  | cons k ks ih =>
    cases hk : r k with
    | none => simp [List.filterMap_cons, hk, ih]
    | some t => simp [List.filterMap_cons, hk, ih]

theorem length_filterMap_eq (r : Nat → Option (List Char)) (l : List Nat) :
    (l.filterMap r).length = (l.filter (fun k => (r k).isSome)).length := by
  induction l with
  | nil => rfl
  | cons k ks ih =>
    cases hk : r k with
    | none => simp [List.filterMap_cons, List.filter_cons, hk, ih]
    | some t => simp [List.filterMap_cons, List.filter_cons, hk, ih]

theorem main_run_out (log ip_str : List Char) (port : Nat) (ldns_udp_send : Transport)
    (capture : List pcap_frame) :
    ∃ n, n ≤ capture.length
      ∧ ((main_run log ip_str port ldns_udp_send capture).aborted = false → n = capture.length)
      ∧ (main_run log ip_str port ldns_udp_send capture).state.out
          = main_header log ip_str port
            ++ ((List.range n).filterMap (record_at ldns_udp_send capture)).flatten
      ∧ (main_run log ip_str port ldns_udp_send capture).state.sent
          = (capture.take n).map (frame_call (main_init log ip_str port))
      ∧ (∀ f ∈ capture.take n, (pcap2ldns_pkt_ip f.x f.h).2.caplen ≤ LDNS_MAX_PACKETLEN)
      ∧ (main_run log ip_str port ldns_udp_send capture).state.qpkt.data = []
      ∧ n = (capture.takeWhile frame_fits).length
      ∧ (main_run log ip_str port ldns_udp_send capture).aborted
          = decide (n < capture.length) := by
  have hi1 : (main_init log ip_str port).i < SIZE_MAX1 := by
    show 1 < SIZE_MAX1
    decide
  obtain ⟨n, hn, hab, _, hQ, hS, hF, hO⟩ :=
    main_loop_trace ldns_udp_send capture (main_init log ip_str port) rfl hi1
  obtain ⟨hc1, hc2⟩ := main_run_count log ip_str port ldns_udp_send capture
  have hnk : n = (capture.takeWhile frame_fits).length := by
    rw [← hc2, main_run, hS]
    simp only [List.length_append, List.length_map, List.length_take]
    show n = 0 + min n capture.length
    omega
  refine ⟨n, hn, hab, ?_, ?_, hF, ?_, hnk, by rw [hc1, ← hnk]⟩
  · rw [main_run, hO, ← flatten_map_getD]
    have e : (main_init log ip_str port).out = main_header log ip_str port := rfl
    have e1 : (main_init log ip_str port).i = 1 := rfl
    have e2 : (main_init log ip_str port).sent.length = 0 := rfl
    rw [e, e1, e2]
    congr 2
    apply List.map_congr_left
    intro j _
    exact step_out_eq_record_at ldns_udp_send capture j
  · rw [main_run, hS]
    rfl
  · rw [main_run, hQ]
    rfl

theorem records_lines (recs : List (List Char))
    (hrec : ∀ t ∈ recs, ∃ i q n r m, t = main_emit [] i q n r m) :
    (∀ l ∈ text_lines recs.flatten, starts_with_semicolon l = false)
      ∧ (text_lines recs.flatten).length = 5 * recs.length
      ∧ recs.flatten.count '\n' = 5 * recs.length := by
  induction recs with
  | nil => simp [text_lines, text_lines_aux]
  | cons t ts ih =>
    obtain ⟨i, q, n, r, m, rfl⟩ := hrec _ (List.mem_cons_self _ _)
    obtain ⟨h1, h2, h3⟩ := ih (fun u hu => hrec u (List.mem_cons_of_mem _ hu))
    have hz : ∀ v, starts_with_semicolon (fmt_zd v) = false := by
      intro v
      have := head?_ne_of_forall_ne (fmt_zd v) ';' (fun c hc => ((fmt_zd_plain v).1 c hc).1)
      simpa [starts_with_semicolon] using this
    have hx : ∀ bs, starts_with_semicolon (hex_pairs bs) = false := by
      intro bs
      have := head?_ne_of_forall_ne (hex_pairs bs) ';' (fun c hc => (hex_pairs_plain bs c hc).1)
      simpa [starts_with_semicolon] using this
    rw [List.flatten_cons, main_emit_lines]
    refine ⟨?_, ?_, ?_⟩
    · intro l hl
      simp only [List.cons_append, List.nil_append, List.mem_cons] at hl
      rcases hl with rfl | rfl | rfl | rfl | rfl | hl
      · exact hz _
      · exact hz _
      · exact hx _
      · exact hz _
      · exact hx _
      · exact h1 l hl
    · simp only [List.length_append, List.length_cons, List.length_nil, h2]
      omega
    · rw [List.count_append, (main_emit_newlines i q n r m).1, h3, List.length_cons]
      omega

theorem main_header_eq (log ip_str : List Char) (port : Nat) :
    main_header log ip_str port = main_header_line log ip_str port ++ ['\n'] := rfl

theorem main_header_line_no_newline (log ip_str : List Char) (port : Nat)
    (hlog : ∀ c ∈ log, c ≠ '\n') (hip : ∀ c ∈ ip_str, c ≠ '\n') :
    ∀ c ∈ main_header_line log ip_str port, c ≠ '\n' := by
  intro c hc
  simp only [main_header_line, DIFF_VERSION, List.mem_append, List.mem_cons,
    List.mem_singleton, List.not_mem_nil, or_false] at hc
  rcases hc with ((((((h | h) | h) | h) | h) | h) | h) | h
  · rcases h with rfl | rfl <;> decide
  · have : c ∈ ['1', '.', '0'] := h
    simp only [List.mem_cons, List.mem_singleton, List.not_mem_nil, or_false] at this
    rcases this with rfl | rfl | rfl <;> decide
  · rcases h with rfl | rfl <;> decide
  · exact hlog c h
  · rcases h with rfl | rfl | rfl <;> decide
  · exact hip c h
  · rw [h]; decide
  · exact ((toDigits_plain port).1 c h).2

theorem main_run_lines (log ip_str : List Char) (port : Nat) (ldns_udp_send : Transport)
    (capture : List pcap_frame)
    (hlog : ∀ c ∈ log, c ≠ '\n') (hip : ∀ c ∈ ip_str, c ≠ '\n') :
    ∃ n recs, n ≤ capture.length
      ∧ ((main_run log ip_str port ldns_udp_send capture).aborted = false → n = capture.length)
      ∧ recs = (List.range n).filterMap (record_at ldns_udp_send capture)
      ∧ (main_run log ip_str port ldns_udp_send capture).state.out
          = main_header log ip_str port ++ recs.flatten
      ∧ text_lines (main_run log ip_str port ldns_udp_send capture).state.out
          = main_header_line log ip_str port :: text_lines recs.flatten
      ∧ (∀ l ∈ text_lines recs.flatten, starts_with_semicolon l = false)
      ∧ (text_lines recs.flatten).length = 5 * recs.length
      ∧ recs.flatten.count '\n' = 5 * recs.length
      ∧ (∀ t ∈ recs, t.count '\n' = 5 ∧ t.getLast? = some '\n')
      ∧ n = (capture.takeWhile frame_fits).length
      ∧ (main_run log ip_str port ldns_udp_send capture).aborted
          = decide (n < capture.length) := by
  obtain ⟨n, hn, hab, hO, _, _, _, hnk, hdec⟩ :=
    main_run_out log ip_str port ldns_udp_send capture
  have hrec : ∀ t ∈ (List.range n).filterMap (record_at ldns_udp_send capture),
      ∃ i q k r m, t = main_emit [] i q k r m := by
    intro t ht
    obtain ⟨j, _, hj⟩ := List.mem_filterMap.1 ht
    obtain ⟨f, a, _, _, e⟩ := record_at_some ldns_udp_send capture j t hj
    exact ⟨_, _, _, _, _, e⟩
  obtain ⟨h1, h2, h3⟩ := records_lines _ hrec
  refine ⟨n, _, hn, hab, rfl, hO, ?_, h1, h2, h3, ?_, hnk, hdec⟩
  · rw [hO, main_header_eq, List.append_assoc, List.singleton_append,
      text_lines_line _ _ (main_header_line_no_newline log ip_str port hlog hip)]
  · intro t ht
    obtain ⟨i, q, k, r, m, rfl⟩ := hrec t ht
    exact main_emit_newlines i q k r m

theorem all_fit_completes (capture : List pcap_frame) (n : Nat) (aborted : Bool)
    (hnk : n = (capture.takeWhile frame_fits).length)
    (hdec : aborted = decide (n < capture.length))
    (hall : ∀ f ∈ capture, frame_fits f = true) :
    n = capture.length ∧ aborted = false := by
  have hfull : n = capture.length := by
    rw [hnk]
    exact takeWhile_length_eq_of_all capture hall
  refine ⟨hfull, ?_⟩
  rw [hdec, hfull]
  simp

/-- C11 (as amended): for a label and an address string without a newline, the header is
written before the loop and is the first line of the output; it begins with `;` and
contains the version tag `1.0`, the label, and the address and port as `ADDR:PORT`.  No
other line of the output begins with `;`, so dropping the lines with a leading semicolon
drops the header and nothing else. -/
theorem main_run_header_line (log ip_str : List Char) (port : Nat)
    (ldns_udp_send : Transport) (capture : List pcap_frame)
    (hlog : ∀ c ∈ log, c ≠ '\n') (hip : ∀ c ∈ ip_str, c ≠ '\n') :
    (main_init log ip_str port).out = main_header_line log ip_str port ++ ['\n']
      ∧ starts_with_semicolon (main_header_line log ip_str port) = true
      ∧ DIFF_VERSION = ['1', '.', '0']
      ∧ List.IsInfix DIFF_VERSION (main_header_line log ip_str port)
      ∧ List.IsInfix log (main_header_line log ip_str port)
      ∧ List.IsInfix (ip_str ++ [':'] ++ Nat.toDigits 10 port)
          (main_header_line log ip_str port)
      ∧ ∃ record_lines,
          text_lines (main_run log ip_str port ldns_udp_send capture).state.out
            = main_header_line log ip_str port :: record_lines
          ∧ (∀ l ∈ record_lines, starts_with_semicolon l = false)
          ∧ (text_lines (main_run log ip_str port ldns_udp_send capture).state.out).filter
              starts_with_semicolon = [main_header_line log ip_str port]
          ∧ (text_lines (main_run log ip_str port ldns_udp_send capture).state.out).filter
              (fun l => !starts_with_semicolon l) = record_lines := by
  obtain ⟨n, recs, _, _, _, _, hL, hS, _⟩ :=
    main_run_lines log ip_str port ldns_udp_send capture hlog hip
  have hh : starts_with_semicolon (main_header_line log ip_str port) = true := rfl
  refine ⟨rfl, hh, rfl, ?_, ?_, ?_, text_lines recs.flatten, hL, hS, ?_, ?_⟩
  · exact ⟨[';', 'v'], [' ', Char.ofNat 96] ++ log ++ [Char.ofNat 39, ' ', ' '] ++ ip_str
      ++ [':'] ++ Nat.toDigits 10 port, by simp [main_header_line]⟩
  · exact ⟨[';', 'v'] ++ DIFF_VERSION ++ [' ', Char.ofNat 96], [Char.ofNat 39, ' ', ' ']
      ++ ip_str ++ [':'] ++ Nat.toDigits 10 port, by simp [main_header_line]⟩
  · exact ⟨[';', 'v'] ++ DIFF_VERSION ++ [' ', Char.ofNat 96] ++ log
      ++ [Char.ofNat 39, ' ', ' '], [], by simp [main_header_line]⟩
  · rw [hL, List.filter_cons, hh]
    simp only [if_true, List.cons.injEq, true_and, List.filter_eq_nil_iff]
    intro l hl
    simp [hS l hl]
  · rw [hL, List.filter_cons, hh]
    simp only [Bool.not_true, Bool.false_eq_true, if_false]
    rw [List.filter_eq_self]
    intro l hl
    simp [hS l hl]

/-- Witness of C11: label `lbl`, address `127.0.0.1`, port 53, the capture (a), (b), (c). -/
theorem main_run_header_line_witness :
    (main_init "lbl".toList "127.0.0.1".toList 53).out
        = main_header_line "lbl".toList "127.0.0.1".toList 53 ++ ['\n']
      ∧ starts_with_semicolon (main_header_line "lbl".toList "127.0.0.1".toList 53) = true
      ∧ DIFF_VERSION = ['1', '.', '0']
      ∧ List.IsInfix DIFF_VERSION (main_header_line "lbl".toList "127.0.0.1".toList 53)
      ∧ List.IsInfix "lbl".toList (main_header_line "lbl".toList "127.0.0.1".toList 53)
      ∧ List.IsInfix ("127.0.0.1".toList ++ [':'] ++ Nat.toDigits 10 53)
          (main_header_line "lbl".toList "127.0.0.1".toList 53)
      ∧ ∃ record_lines,
          text_lines (main_run "lbl".toList "127.0.0.1".toList 53 answer_first_only
              [frame_a, frame_b, frame_c]).state.out
            = main_header_line "lbl".toList "127.0.0.1".toList 53 :: record_lines
          ∧ (∀ l ∈ record_lines, starts_with_semicolon l = false)
          ∧ (text_lines (main_run "lbl".toList "127.0.0.1".toList 53 answer_first_only
              [frame_a, frame_b, frame_c]).state.out).filter
              starts_with_semicolon = [main_header_line "lbl".toList "127.0.0.1".toList 53]
          ∧ (text_lines (main_run "lbl".toList "127.0.0.1".toList 53 answer_first_only
              [frame_a, frame_b, frame_c]).state.out).filter
              (fun l => !starts_with_semicolon l) = record_lines :=
  main_run_header_line "lbl".toList "127.0.0.1".toList 53 answer_first_only
    [frame_a, frame_b, frame_c] (by decide) (by decide)

/-- Counterexample to C11 as stated: with the label `x`, newline, `;y` and no frame at all,
the output has two lines and both begin with `;`. -/
theorem main_header_label_with_newline :
    (text_lines (main_run ['x', '\n', ';', 'y'] "127.0.0.1".toList 53 answer_never
        []).state.out).length = 2
      ∧ ((text_lines (main_run ['x', '\n', ';', 'y'] "127.0.0.1".toList 53 answer_never
          []).state.out).filter starts_with_semicolon).length = 2
      ∧ (text_lines (main_run ['x', '\n', ';', 'y'] "127.0.0.1".toList 53 answer_never
          []).state.out).head? = some [';', 'v', '1', '.', '0', ' ', Char.ofNat 96, 'x'] := by
  decide

/-- C12 (as amended): for a label and an address string without a newline, the output is
the header line followed by the records of the frames whose round trip succeeded, one each,
in frame order, among the `n` frames processed.  That number is the length of the longest
prefix of the capture whose payloads fit the query buffer: the whole capture when every
payload fits, and then the run is not stopped early.  Every record is five
newline-terminated lines, so with `s` records the output has `1 + 5 * s` lines, whether the
run completed or stopped early. -/
theorem main_run_complete_records (log ip_str : List Char) (port : Nat)
    (ldns_udp_send : Transport) (capture : List pcap_frame)
    (hlog : ∀ c ∈ log, c ≠ '\n') (hip : ∀ c ∈ ip_str, c ≠ '\n') :
    ∃ n, n ≤ capture.length
      ∧ ((main_run log ip_str port ldns_udp_send capture).aborted = false → n = capture.length)
      ∧ n = (capture.takeWhile frame_fits).length
      ∧ (main_run log ip_str port ldns_udp_send capture).aborted
          = decide (n < capture.length)
      ∧ ((∀ f ∈ capture, frame_fits f = true) →
          n = capture.length
            ∧ (main_run log ip_str port ldns_udp_send capture).aborted = false)
      ∧ (main_run log ip_str port ldns_udp_send capture).state.out
          = main_header log ip_str port
            ++ ((List.range n).filterMap (record_at ldns_udp_send capture)).flatten
      ∧ (∀ t ∈ (List.range n).filterMap (record_at ldns_udp_send capture),
            t.count '\n' = 5 ∧ t.getLast? = some '\n')
      ∧ (∀ j, (record_at ldns_udp_send capture j).isSome = true
            ↔ ∃ f, capture[j]? = some f
                ∧ (ldns_udp_send j (frame_payload f)).isSome = true)
      ∧ ((List.range n).filterMap (record_at ldns_udp_send capture)).length
          = ((List.range n).filter
              (fun j => (record_at ldns_udp_send capture j).isSome)).length
      ∧ (text_lines (main_run log ip_str port ldns_udp_send capture).state.out).length
          = 1 + 5 * ((List.range n).filter
              (fun j => (record_at ldns_udp_send capture j).isSome)).length
      ∧ (main_run log ip_str port ldns_udp_send capture).state.out.count '\n'
          = 1 + 5 * ((List.range n).filter
              (fun j => (record_at ldns_udp_send capture j).isSome)).length
      ∧ (main_run log ip_str port ldns_udp_send capture).state.out.getLast? = some '\n' := by
  obtain ⟨n, recs, hn, hab, rfl, hO, hL, _, h5, hc, hrec, hnk, hdec⟩ :=
    main_run_lines log ip_str port ldns_udp_send capture hlog hip
  have hlen := length_filterMap_eq (record_at ldns_udp_send capture) (List.range n)
  refine ⟨n, hn, hab, hnk, hdec, all_fit_completes capture n _ hnk hdec, hO, hrec,
    record_at_isSome ldns_udp_send capture, hlen, ?_, ?_, ?_⟩
  · rw [hL, List.length_cons, h5, hlen]
    omega
  · rw [hO, main_header_eq, List.count_append, List.count_append, hc, hlen,
      count_newline_eq_zero _ (main_header_line_no_newline log ip_str port hlog hip)]
    simp
  · rw [hO]
    cases hr : ((List.range n).filterMap (record_at ldns_udp_send capture)).reverse with
    | nil =>
      have : (List.range n).filterMap (record_at ldns_udp_send capture) = [] := by
        simpa using hr
      rw [this, main_header_eq]
      simp
    | cons t ts =>
      have e : (List.range n).filterMap (record_at ldns_udp_send capture)
          = ts.reverse ++ [t] := by
        have := congrArg List.reverse hr
        simpa using this
      have ht := (hrec t (by rw [e]; simp)).2
      have hne : t ≠ [] := by
        intro h0
        rw [h0] at ht
        simp at ht
      rw [e, List.flatten_append, ← List.append_assoc]
      simp only [List.flatten_cons, List.flatten_nil, List.append_nil]
      rw [List.getLast?_append_of_ne_nil _ hne]
      exact ht

/-- Witness of C12: label `lbl`, address `127.0.0.1`, port 53, the capture (a), (b), (c). -/
theorem main_run_complete_records_witness :
    ∃ n, n ≤ [frame_a, frame_b, frame_c].length
      ∧ ((main_run "lbl".toList "127.0.0.1".toList 53 answer_first_only
            [frame_a, frame_b, frame_c]).aborted = false
          → n = [frame_a, frame_b, frame_c].length)
      ∧ n = ([frame_a, frame_b, frame_c].takeWhile frame_fits).length
      ∧ (main_run "lbl".toList "127.0.0.1".toList 53 answer_first_only
            [frame_a, frame_b, frame_c]).aborted
          = decide (n < [frame_a, frame_b, frame_c].length)
      ∧ ((∀ f ∈ [frame_a, frame_b, frame_c], frame_fits f = true) →
          n = [frame_a, frame_b, frame_c].length
            ∧ (main_run "lbl".toList "127.0.0.1".toList 53 answer_first_only
                [frame_a, frame_b, frame_c]).aborted = false)
      ∧ (main_run "lbl".toList "127.0.0.1".toList 53 answer_first_only
            [frame_a, frame_b, frame_c]).state.out
          = main_header "lbl".toList "127.0.0.1".toList 53
            ++ ((List.range n).filterMap
                (record_at answer_first_only [frame_a, frame_b, frame_c])).flatten
      ∧ (∀ t ∈ (List.range n).filterMap
              (record_at answer_first_only [frame_a, frame_b, frame_c]),
            t.count '\n' = 5 ∧ t.getLast? = some '\n')
      ∧ (∀ j, (record_at answer_first_only [frame_a, frame_b, frame_c] j).isSome = true
            ↔ ∃ f, [frame_a, frame_b, frame_c][j]? = some f
                ∧ (answer_first_only j (frame_payload f)).isSome = true)
      ∧ ((List.range n).filterMap
            (record_at answer_first_only [frame_a, frame_b, frame_c])).length
          = ((List.range n).filter
              (fun j => (record_at answer_first_only
                [frame_a, frame_b, frame_c] j).isSome)).length
      ∧ (text_lines (main_run "lbl".toList "127.0.0.1".toList 53 answer_first_only
            [frame_a, frame_b, frame_c]).state.out).length
          = 1 + 5 * ((List.range n).filter
              (fun j => (record_at answer_first_only
                [frame_a, frame_b, frame_c] j).isSome)).length
      ∧ (main_run "lbl".toList "127.0.0.1".toList 53 answer_first_only
            [frame_a, frame_b, frame_c]).state.out.count '\n'
          = 1 + 5 * ((List.range n).filter
              (fun j => (record_at answer_first_only
                [frame_a, frame_b, frame_c] j).isSome)).length
      ∧ (main_run "lbl".toList "127.0.0.1".toList 53 answer_first_only
            [frame_a, frame_b, frame_c]).state.out.getLast? = some '\n' :=
  main_run_complete_records "lbl".toList "127.0.0.1".toList 53 answer_first_only
    [frame_a, frame_b, frame_c] (by decide) (by decide)

/-- Counterexample to C12 as stated: with the label `a`, newline, `b` and the single frame
(a), answered, there is one successful round trip and one record, and the output has 7
lines, not `1 + 5 * 1`. -/
theorem main_run_line_count_label_with_newline :
    (main_run ['a', '\n', 'b'] "127.0.0.1".toList 53 answer_first_only [frame_a]).aborted
        = false
      ∧ ((List.range 1).filter
          (fun j => (record_at answer_first_only [frame_a] j).isSome)).length = 1
      ∧ (text_lines (main_run ['a', '\n', 'b'] "127.0.0.1".toList 53 answer_first_only
          [frame_a]).state.out).length = 7
      ∧ (main_run ['a', '\n', 'b'] "127.0.0.1".toList 53 answer_first_only
          [frame_a]).state.out.count '\n' = 7
      ∧ (text_lines (main_run ['a', '\n', 'b'] "127.0.0.1".toList 53 answer_first_only
          [frame_a]).state.out).length ≠ 1 + 5 * 1 := by
  decide

/-- C13: the loop calls the transport once for each frame it processes and never again:
after a run that processed `n` frames the call log has `n` entries, at most the number of
frames in the capture, the `j`-th of them carrying the payload of the `j`-th frame.  Every
call is given the destination built from the address and the port before the loop, the
same `tolen`, and the timeout of 2 seconds and 0 microseconds. -/
theorem main_run_transport_calls (log ip_str : List Char) (port : Nat)
    (ldns_udp_send : Transport) (capture : List pcap_frame) :
    ∃ n, n ≤ capture.length
      ∧ ((main_run log ip_str port ldns_udp_send capture).aborted = false → n = capture.length)
      ∧ (main_run log ip_str port ldns_udp_send capture).state.sent.length = n
      ∧ (main_run log ip_str port ldns_udp_send capture).state.sent.length ≤ capture.length
      ∧ (main_run log ip_str port ldns_udp_send capture).state.sent.map udp_call.qbin
          = (capture.take n).map frame_payload
      ∧ ∀ c ∈ (main_run log ip_str port ldns_udp_send capture).state.sent,
          c.dst = { sin_family := AF_INET, sin_port := port, sin_addr := ip_str }
            ∧ c.tolen = SIZEOF_SOCKADDR_IN
            ∧ c.timeout = { tv_sec := 2, tv_usec := 0 } := by
  obtain ⟨n, hn, hab, _, hS, _, _⟩ := main_run_out log ip_str port ldns_udp_send capture
  have hlen : (main_run log ip_str port ldns_udp_send capture).state.sent.length = n := by
    rw [hS, List.length_map, List.length_take]
    omega
  refine ⟨n, hn, hab, hlen, by omega, ?_, ?_⟩
  · rw [hS, List.map_map]
    rfl
  · intro c hc
    rw [hS] at hc
    obtain ⟨f, _, rfl⟩ := List.mem_map.1 hc
    exact ⟨rfl, rfl, rfl⟩

theorem hex_pairs_counts (bs : List u_char) :
    (hex_pairs bs).length = 3 * bs.length
      ∧ ((hex_pairs bs).filter (fun c => c ∈ lower_hex_digits)).length = 2 * bs.length := by
  induction bs with
  | nil => exact ⟨rfl, rfl⟩
  | cons b bs ih =>
    have h1 := (digitChar_hex (b.val / 16) (by omega)).1
    have h2 := (digitChar_hex (b.val % 16) (Nat.mod_lt _ (by omega))).1
    have hsp : ¬ (' ' ∈ lower_hex_digits) := by decide
    have hcons : hex_pairs (b :: bs)
        = Nat.digitChar (b.val / 16) :: Nat.digitChar (b.val % 16) :: ' ' :: hex_pairs bs := by
      simp [hex_pairs, hex_pair]
    rw [hcons]
    constructor
    · simp only [List.length_cons, ih.1]
      omega
    · simp only [List.filter_cons, h1, h2, hsp, decide_True, decide_False, if_true,
        List.length_cons, ih.2]
      simp
      omega

/-- Counterexample to C14 as stated: the length lines of a record do not count hexadecimal
characters.  For frame (a) answered with `ca fe`, the record is `1`, `4`, `12 34 01 00 `,
`2`, `ca fe `: the second line reads 4, the number of query bytes, while the query dump
holds 8 hexadecimal digits in 12 characters, and the fourth line reads 2 while the answer
dump holds 4 hexadecimal digits in 6 characters.  In general the dump of `N` bytes has
`2 * N` hexadecimal digits in `3 * N` characters. -/
theorem record_lengths_count_bytes :
    text_lines (main_run [] [] 53 answer_first_only [frame_a]).state.out
        = [main_header_line [] [] 53, "1".toList, "4".toList, "12 34 01 00 ".toList,
            "2".toList, "ca fe ".toList]
      ∧ parse_decimal "4".toList = some 4
      ∧ ("12 34 01 00 ".toList.filter (fun c => c ∈ lower_hex_digits)).length = 8
      ∧ "12 34 01 00 ".toList.length = 12
      ∧ parse_decimal "4".toList
          ≠ some ("12 34 01 00 ".toList.filter (fun c => c ∈ lower_hex_digits)).length
      ∧ parse_decimal "4".toList ≠ some "12 34 01 00 ".toList.length
      ∧ parse_decimal "2".toList = some 2
      ∧ ("ca fe ".toList.filter (fun c => c ∈ lower_hex_digits)).length = 4
      ∧ "ca fe ".toList.length = 6
      ∧ parse_decimal "2".toList
          ≠ some ("ca fe ".toList.filter (fun c => c ∈ lower_hex_digits)).length
      ∧ parse_decimal "2".toList ≠ some "ca fe ".toList.length
      ∧ (∀ bs : List u_char, (hex_pairs bs).length = 3 * bs.length
          ∧ ((hex_pairs bs).filter (fun c => c ∈ lower_hex_digits)).length = 2 * bs.length) := by
  refine ⟨by decide, by decide, by decide, by decide, by decide, by decide, by decide,
    by decide, by decide, by decide, by decide, hex_pairs_counts⟩

/-- C14 (as amended): the second line of every record is the decimal number of bytes of the
query, which is the number of two-digit tokens of the dump on the line after it and half
the number of hexadecimal characters of that dump; the fourth line is the decimal number
of bytes of the reply, in the same relation to the dump after it.  Every record of a run is
such a text, its query length being the length of the payload of its frame. -/
theorem record_length_lines (i : Nat) (q : u_char_ptr) (N : Nat) (r : u_char_ptr) (M : Nat)
    (hN : N < 2 ^ 63) (hM : M < 2 ^ 63) :
    text_lines (main_emit [] i q N r M)
        = [fmt_zd i, Nat.toDigits 10 N, hex_pairs (bytes q N), Nat.toDigits 10 M,
            hex_pairs (bytes r M)]
      ∧ parse_decimal (Nat.toDigits 10 N) = some N
      ∧ (bytes q N).length = N
      ∧ (tokens (hex_pairs (bytes q N))).length = N
      ∧ ((hex_pairs (bytes q N)).filter (fun c => c ∈ lower_hex_digits)).length = 2 * N
      ∧ parse_decimal (Nat.toDigits 10 M) = some M
      ∧ (bytes r M).length = M
      ∧ (tokens (hex_pairs (bytes r M))).length = M
      ∧ ((hex_pairs (bytes r M)).filter (fun c => c ∈ lower_hex_digits)).length = 2 * M
      ∧ (∀ (ldns_udp_send : Transport) (capture : List pcap_frame) (j : Nat) (t : List Char),
          record_at ldns_udp_send capture j = some t →
          ∃ f a, capture[j]? = some f ∧ ldns_udp_send j (frame_payload f) = some a
            ∧ t = main_emit [] ((1 + j) % SIZE_MAX1) (fun k => f.x (DNS_UDP_OFFSET + k))
                (frame_payload f).length a.result a.size) := by
  have hl := main_emit_lines i q N r M []
  rw [List.append_nil, fmt_zd_eq_toDigits N hN, fmt_zd_eq_toDigits M hM] at hl
  have htok : ∀ bs : List u_char, (tokens (hex_pairs bs)).length = bs.length := by
    intro bs
    rw [tokens, tokens_aux_hex_pairs, List.length_map]
  refine ⟨?_, parse_decimal_toDigits N, bytes_length q N, ?_, ?_, parse_decimal_toDigits M,
    bytes_length r M, ?_, ?_, ?_⟩
  · rw [hl]
    simp [text_lines, text_lines_aux]
  · rw [htok, bytes_length]
  · rw [(hex_pairs_counts _).2, bytes_length]
  · rw [htok, bytes_length]
  · rw [(hex_pairs_counts _).2, bytes_length]
  · intro ldns_udp_send capture j t ht
    obtain ⟨f, a, h1, h2, h3⟩ := record_at_some ldns_udp_send capture j t ht
    refine ⟨f, a, h1, h2, ?_⟩
    rw [h3, frame_payload, bytes_length]

/-- Witness of C14: the record of frame (a), four query bytes, answered with two bytes. -/
theorem record_length_lines_witness :
    text_lines (main_emit [] 1 (ptr_of [0x12, 0x34, 0x01, 0x00]) 4 (ptr_of [0xca, 0xfe]) 2)
        = [fmt_zd 1, Nat.toDigits 10 4, hex_pairs (bytes (ptr_of [0x12, 0x34, 0x01, 0x00]) 4),
            Nat.toDigits 10 2, hex_pairs (bytes (ptr_of [0xca, 0xfe]) 2)]
      ∧ parse_decimal (Nat.toDigits 10 4) = some 4
      ∧ (bytes (ptr_of [0x12, 0x34, 0x01, 0x00]) 4).length = 4
      ∧ (tokens (hex_pairs (bytes (ptr_of [0x12, 0x34, 0x01, 0x00]) 4))).length = 4
      ∧ ((hex_pairs (bytes (ptr_of [0x12, 0x34, 0x01, 0x00]) 4)).filter
          (fun c => c ∈ lower_hex_digits)).length = 2 * 4
      ∧ parse_decimal (Nat.toDigits 10 2) = some 2
      ∧ (bytes (ptr_of [0xca, 0xfe]) 2).length = 2
      ∧ (tokens (hex_pairs (bytes (ptr_of [0xca, 0xfe]) 2))).length = 2
      ∧ ((hex_pairs (bytes (ptr_of [0xca, 0xfe]) 2)).filter
          (fun c => c ∈ lower_hex_digits)).length = 2 * 2
      ∧ (∀ (ldns_udp_send : Transport) (capture : List pcap_frame) (j : Nat) (t : List Char),
          record_at ldns_udp_send capture j = some t →
          ∃ f a, capture[j]? = some f ∧ ldns_udp_send j (frame_payload f) = some a
            ∧ t = main_emit [] ((1 + j) % SIZE_MAX1) (fun k => f.x (DNS_UDP_OFFSET + k))
                (frame_payload f).length a.result a.size) :=
  record_length_lines 1 (ptr_of [0x12, 0x34, 0x01, 0x00]) 4 (ptr_of [0xca, 0xfe]) 2
    (by decide) (by decide)

theorem frame_payload_eq_drop (f : pcap_frame) (hty : f.h.caplen < U32)
    (hc : DNS_UDP_OFFSET ≤ f.h.caplen) :
    frame_payload f = (bytes f.x f.h.caplen).drop DNS_UDP_OFFSET := by
  have hcap : (pcap2ldns_pkt_ip f.x f.h).2.caplen = f.h.caplen - DNS_UDP_OFFSET := by
    rw [pcap2ldns_pkt_ip_snd]
    exact u32_sub_of_le _ _ hty hc
  rw [frame_payload, hcap]
  apply List.ext_getElem?
  intro n
  rw [List.getElem?_drop, bytes_getElem?, bytes_getElem?]
  by_cases hn : n < f.h.caplen - DNS_UDP_OFFSET
  · rw [if_pos hn, if_pos (by omega)]
  · rw [if_neg hn, if_neg (by omega)]

theorem fits_imp_not_truncated (f : pcap_frame)
    (hfit : (pcap2ldns_pkt_ip f.x f.h).2.caplen ≤ LDNS_MAX_PACKETLEN) :
    DNS_UDP_OFFSET ≤ f.h.caplen := by
  by_contra hlt
  have h1 : f.h.caplen < DNS_UDP_OFFSET := by omega
  rw [pcap2ldns_pkt_ip_snd] at hfit
  have h2 := u32_sub_of_lt f.h.caplen DNS_UDP_OFFSET (by decide) h1
  have h3 : u32_sub f.h.caplen DNS_UDP_OFFSET ≤ LDNS_MAX_PACKETLEN := hfit
  rw [h2] at h3
  simp only [U32, DNS_UDP_OFFSET, LDNS_MAX_PACKETLEN] at h3 h1
  omega

theorem main_loop_sent_indep (send1 send2 : Transport) :
    ∀ (frames : List pcap_frame) (s s' : replay_state),
      s.qpkt = s'.qpkt → s.sent = s'.sent →
      (s.data = s'.data ∧ s.tolen = s'.tolen ∧ s.timeout = s'.timeout) →
      (main_loop send1 s frames).state.sent = (main_loop send2 s' frames).state.sent
        ∧ (main_loop send1 s frames).aborted = (main_loop send2 s' frames).aborted := by
  intro frames
  induction frames with
  | nil => intro s s' _ hs _; exact ⟨hs, rfl⟩
  | cons f fs ih =>
    intro s s' hq hs hc
    obtain ⟨hc1, hc2, hc3⟩ := hc
    simp only [main_loop, main_loop_body_eq, ← hq, ← hs, ← hc1, ← hc2, ← hc3]
    by_cases hfit : s.qpkt.data.length + (pcap2ldns_pkt_ip f.x f.h).2.caplen ≤ s.qpkt.capacity
    · simp only [if_pos hfit]
      exact ih _ _ rfl rfl ⟨rfl, rfl, rfl⟩
    · simp only [if_neg hfit]
      exact ⟨hs, trivial⟩

theorem frame_fits_iff (f : pcap_frame) (hty : f.h.caplen < U32) :
    frame_fits f = true
      ↔ (DNS_UDP_OFFSET ≤ f.h.caplen ∧ f.h.caplen ≤ DNS_UDP_OFFSET + LDNS_MAX_PACKETLEN) := by
  simp only [frame_fits, decide_eq_true_eq, pcap2ldns_pkt_ip_snd]
  by_cases hc : DNS_UDP_OFFSET ≤ f.h.caplen
  · rw [u32_sub_of_le _ _ hty hc]
    simp only [DNS_UDP_OFFSET, LDNS_MAX_PACKETLEN] at *
    omega
  · rw [u32_sub_of_lt f.h.caplen DNS_UDP_OFFSET (by decide) (by omega)]
    simp only [U32, DNS_UDP_OFFSET, LDNS_MAX_PACKETLEN] at *
    omega

/-- C15: the query buffer is empty whenever an iteration starts (after any number of frames
of the capture), so the datagram handed to the transport for each processed frame is the
payload of that frame alone, its bytes from offset 42 up to its captured length, and the
datagrams are the same whatever the transport answers.  The frames processed are those of
the longest prefix of the capture whose payloads fit the query buffer, that is whose
captured length is between 42 and 42 + 65535; when every frame is such, every frame of the
capture has its datagram handed to the transport. -/
theorem main_run_query_buffer (log ip_str : List Char) (port : Nat)
    (ldns_udp_send : Transport) (capture : List pcap_frame)
    (htype : ∀ f ∈ capture, f.h.caplen < U32) :
    (∀ m, (main_run log ip_str port ldns_udp_send (capture.take m)).state.qpkt.data = [])
      ∧ (∀ other : Transport,
          (main_run log ip_str port other capture).state.sent
            = (main_run log ip_str port ldns_udp_send capture).state.sent)
      ∧ (∀ f ∈ capture, (frame_fits f = true
          ↔ (DNS_UDP_OFFSET ≤ f.h.caplen
              ∧ f.h.caplen ≤ DNS_UDP_OFFSET + LDNS_MAX_PACKETLEN)))
      ∧ ∃ n, n ≤ capture.length
        ∧ ((main_run log ip_str port ldns_udp_send capture).aborted = false
            → n = capture.length)
        ∧ n = (capture.takeWhile frame_fits).length
        ∧ (main_run log ip_str port ldns_udp_send capture).aborted
            = decide (n < capture.length)
        ∧ (main_run log ip_str port ldns_udp_send capture).state.sent.length = n
        ∧ (∀ f ∈ capture.take n, DNS_UDP_OFFSET ≤ f.h.caplen)
        ∧ (main_run log ip_str port ldns_udp_send capture).state.sent.map udp_call.qbin
            = (capture.take n).map (fun f => (bytes f.x f.h.caplen).drop DNS_UDP_OFFSET)
        ∧ ((∀ f ∈ capture, frame_fits f = true) →
            (main_run log ip_str port ldns_udp_send capture).aborted = false
              ∧ (main_run log ip_str port ldns_udp_send capture).state.sent.map udp_call.qbin
                  = capture.map (fun f => (bytes f.x f.h.caplen).drop DNS_UDP_OFFSET)) := by
  refine ⟨?_, ?_, ?_, ?_⟩
  · intro m
    obtain ⟨_, _, _, _, _, _, hQ, _⟩ :=
      main_run_out log ip_str port ldns_udp_send (capture.take m)
    exact hQ
  · intro other
    exact (main_loop_sent_indep other ldns_udp_send capture _ _ rfl rfl ⟨rfl, rfl, rfl⟩).1
  · intro f hf
    exact frame_fits_iff f (htype f hf)
  · obtain ⟨n, hn, hab, _, hS, hF, _, hnk, hdec⟩ :=
      main_run_out log ip_str port ldns_udp_send capture
    have hge : ∀ f ∈ capture.take n, DNS_UDP_OFFSET ≤ f.h.caplen := by
      intro f hf
      exact fits_imp_not_truncated f (hF f hf)
    have hmap : (main_run log ip_str port ldns_udp_send capture).state.sent.map udp_call.qbin
        = (capture.take n).map (fun f => (bytes f.x f.h.caplen).drop DNS_UDP_OFFSET) := by
      rw [hS, List.map_map]
      apply List.map_congr_left
      intro f hf
      simp only [Function.comp, frame_call]
      exact frame_payload_eq_drop f (htype f (List.mem_of_mem_take hf)) (hge f hf)
    have hlen : (main_run log ip_str port ldns_udp_send capture).state.sent.length = n := by
      rw [hS, List.length_map, List.length_take]
      omega
    refine ⟨n, hn, hab, hnk, hdec, hlen, hge, hmap, ?_⟩
    intro hall
    obtain ⟨hfull, hna⟩ := all_fit_completes capture n _ hnk hdec hall
    refine ⟨hna, ?_⟩
    rw [hmap, hfull, List.take_length]

/-- Witness of C15: the capture (a), (b), (c). -/
theorem main_run_query_buffer_witness :
    (∀ m, (main_run [] [] 53 answer_first_only
        ([frame_a, frame_b, frame_c].take m)).state.qpkt.data = [])
      ∧ (∀ other : Transport,
          (main_run [] [] 53 other [frame_a, frame_b, frame_c]).state.sent
            = (main_run [] [] 53 answer_first_only [frame_a, frame_b, frame_c]).state.sent)
      ∧ (∀ f ∈ [frame_a, frame_b, frame_c], (frame_fits f = true
          ↔ (DNS_UDP_OFFSET ≤ f.h.caplen
              ∧ f.h.caplen ≤ DNS_UDP_OFFSET + LDNS_MAX_PACKETLEN)))
      ∧ ∃ n, n ≤ [frame_a, frame_b, frame_c].length
        ∧ ((main_run [] [] 53 answer_first_only [frame_a, frame_b, frame_c]).aborted = false
            → n = [frame_a, frame_b, frame_c].length)
        ∧ n = ([frame_a, frame_b, frame_c].takeWhile frame_fits).length
        ∧ (main_run [] [] 53 answer_first_only [frame_a, frame_b, frame_c]).aborted
            = decide (n < [frame_a, frame_b, frame_c].length)
        ∧ (main_run [] [] 53 answer_first_only [frame_a, frame_b, frame_c]).state.sent.length
            = n
        ∧ (∀ f ∈ [frame_a, frame_b, frame_c].take n, DNS_UDP_OFFSET ≤ f.h.caplen)
        ∧ (main_run [] [] 53 answer_first_only
              [frame_a, frame_b, frame_c]).state.sent.map udp_call.qbin
            = ([frame_a, frame_b, frame_c].take n).map
                (fun f => (bytes f.x f.h.caplen).drop DNS_UDP_OFFSET)
        ∧ ((∀ f ∈ [frame_a, frame_b, frame_c], frame_fits f = true) →
            (main_run [] [] 53 answer_first_only [frame_a, frame_b, frame_c]).aborted = false
              ∧ (main_run [] [] 53 answer_first_only
                    [frame_a, frame_b, frame_c]).state.sent.map udp_call.qbin
                  = [frame_a, frame_b, frame_c].map
                      (fun f => (bytes f.x f.h.caplen).drop DNS_UDP_OFFSET)) :=
  main_run_query_buffer [] [] 53 answer_first_only [frame_a, frame_b, frame_c]
    (by
      intro f hf
      simp only [List.mem_cons, List.mem_singleton, List.not_mem_nil, or_false] at hf
      rcases hf with rfl | rfl | rfl <;> decide)

end LdnsPcat

namespace LdnsRr

/-! ## Typed getters and setters -/

theorem rrsig_getter_eq (k : Fin 9) (r : Option ldns_rr) :
    rrsig_getter k r = ldns_rr_function LDNS_RR_TYPE_RRSIG r k.val := by
  fin_cases k <;> rfl

theorem rrsig_setter_eq (k : Fin 9) (r : Option ldns_rr) (f : Option ldns_rdf) :
    rrsig_setter k r f = ldns_rr_set_function LDNS_RR_TYPE_RRSIG r f k.val := by
  fin_cases k <;> rfl

theorem ldns_rr_rdf_eq (r : ldns_rr) (nr : Nat) :
    ldns_rr_rdf r nr = (r._rdata_fields[nr]?).join := by
  simp only [ldns_rr_rdf, ldns_rr_rd_count, List.getD_eq_getElem?_getD]
  by_cases h : nr < r._rdata_fields.length
  · rw [if_pos h, List.getElem?_eq_getElem h]
    rfl
  · rw [if_neg h, List.getElem?_eq_none (by omega)]
    rfl

theorem ldns_rr_set_rdf_fst (r : ldns_rr) (f : Option ldns_rdf) (p : Nat) :
    (ldns_rr_set_rdf r f p).1 = ldns_rr_rdf r p := by
  simp only [ldns_rr_set_rdf, ldns_rr_rdf]
  split <;> rfl

theorem ldns_rr_set_rdf_snd (r : ldns_rr) (f : Option ldns_rdf) (p : Nat) :
    (ldns_rr_set_rdf r f p).2
      = if p < ldns_rr_rd_count r then { r with _rdata_fields := r._rdata_fields.set p f }
        else r := by
  simp only [ldns_rr_set_rdf]
  split <;> rfl

theorem ldns_rr_rdf_set_same (r : ldns_rr) (f : Option ldns_rdf) (p : Nat)
    (hp : p < ldns_rr_rd_count r) :
    ldns_rr_rdf { r with _rdata_fields := r._rdata_fields.set p f } p = f := by
  simp only [ldns_rr_rd_count] at hp
  simp [ldns_rr_rdf, ldns_rr_rd_count, List.getD_eq_getElem?_getD, List.getElem?_set, hp]

theorem ldns_rr_rdf_set_other (r : ldns_rr) (f : Option ldns_rdf) (p q : Nat) (hq : q ≠ p) :
    ldns_rr_rdf { r with _rdata_fields := r._rdata_fields.set p f } q = ldns_rr_rdf r q := by
  simp [ldns_rr_rdf, ldns_rr_rd_count, List.getD_eq_getElem?_getD, List.getElem?_set,
    Ne.symm hq]

theorem ldns_rr_function_some (type : ldns_rr_type) (r : ldns_rr) (pos : Nat) :
    ldns_rr_function type (some r) pos
      = if r._rr_type = type then ldns_rr_rdf r pos else none := by
  simp only [ldns_rr_function, ldns_rr_get_type]
  by_cases h : r._rr_type = type <;> simp [h]

theorem ldns_rr_set_function_typed (type : ldns_rr_type) (r : ldns_rr) (f : Option ldns_rdf)
    (pos : Nat) (ht : r._rr_type = type) :
    ldns_rr_set_function type (some r) f pos
      = { ret := (ldns_rr_rdf r pos).isSome,
          rr := some (if pos < ldns_rr_rd_count r then
              { r with _rdata_fields := r._rdata_fields.set pos f } else r),
          freed := ldns_rr_rdf r pos } := by
  simp only [ldns_rr_set_function, ldns_rr_get_type, ht, ne_eq, not_true_eq_false, if_false,
    ldns_rr_set_rdf_fst, ldns_rr_set_rdf_snd]
  cases h : ldns_rr_rdf r pos <;> simp

theorem ldns_rr_set_address_typed (r : ldns_rr) (f : Option ldns_rdf)
    (ht : r._rr_type = LDNS_RR_TYPE_A ∨ r._rr_type = LDNS_RR_TYPE_AAAA) :
    ldns_rr_set_address (some r) f
      = { ret := (ldns_rr_rdf r 0).isSome,
          rr := some (if 0 < ldns_rr_rd_count r then
              { r with _rdata_fields := r._rdata_fields.set 0 f } else r),
          freed := ldns_rr_rdf r 0 } := by
  have hn : ¬ (r._rr_type ≠ LDNS_RR_TYPE_A ∧ r._rr_type ≠ LDNS_RR_TYPE_AAAA) := by
    rcases ht with h | h <;> simp [h]
  simp only [ldns_rr_set_address, ldns_rr_get_type, if_neg hn, ldns_rr_set_rdf_fst,
    ldns_rr_set_rdf_snd]
  cases h : ldns_rr_rdf r 0 <;> simp

theorem ldns_rr_address_some (r : ldns_rr) :
    ldns_rr_address (some r)
      = if r._rr_type = LDNS_RR_TYPE_A ∨ r._rr_type = LDNS_RR_TYPE_AAAA then ldns_rr_rdf r 0
        else none := by
  simp only [ldns_rr_address, ldns_rr_get_type]
  by_cases h1 : r._rr_type = LDNS_RR_TYPE_A
  · simp [h1]
  · by_cases h2 : r._rr_type = LDNS_RR_TYPE_AAAA
    · simp [h2]
    · simp [h1, h2]

theorem rdf_isSome_lt (r : ldns_rr) (p : Nat) (h : (ldns_rr_rdf r p).isSome = true) :
    p < ldns_rr_rd_count r := by
  by_contra hn
  simp [ldns_rr_rdf, hn] at h

/-- C16: every typed getter returns `NULL` for a `NULL` record and for a record of another
type, and otherwise the rdata field at its fixed position: `ldns_rr_address` position 0 on
A or AAAA, `ldns_rr_nsdname` position 0 on NS, `ldns_rr_preference` and `ldns_rr_exchange`
positions 0 and 1 on MX, and the nine RRSIG getters positions 0 to 8 in the order
typecovered, algorithm, labels, origttl, expiration, inception, keytag, signame, sig. -/
theorem typed_getters (r : ldns_rr) :
    (ldns_rr_address none = none ∧ ldns_rr_nsdname none = none
        ∧ ldns_rr_preference none = none ∧ ldns_rr_exchange none = none
        ∧ ∀ k : Fin 9, rrsig_getter k none = none)
      ∧ ldns_rr_address (some r)
          = (if r._rr_type = LDNS_RR_TYPE_A ∨ r._rr_type = LDNS_RR_TYPE_AAAA then
              ldns_rr_rdf r 0 else none)
      ∧ ldns_rr_nsdname (some r)
          = (if r._rr_type = LDNS_RR_TYPE_NS then ldns_rr_rdf r 0 else none)
      ∧ ldns_rr_preference (some r)
          = (if r._rr_type = LDNS_RR_TYPE_MX then ldns_rr_rdf r 0 else none)
      ∧ ldns_rr_exchange (some r)
          = (if r._rr_type = LDNS_RR_TYPE_MX then ldns_rr_rdf r 1 else none)
      ∧ (∀ k : Fin 9, rrsig_getter k (some r)
          = (if r._rr_type = LDNS_RR_TYPE_RRSIG then ldns_rr_rdf r k.val else none))
      ∧ (∀ nr, ldns_rr_rdf r nr = (r._rdata_fields[nr]?).join)
      ∧ (∀ (o : Option ldns_rdf) (ttl rrclass : Nat) (f0 f1 f2 f3 f4 f5 f6 f7 f8 : Option ldns_rdf),
          ldns_rr_typecovered (some (ldns_rr.mk o ttl rrclass LDNS_RR_TYPE_RRSIG
              [f0, f1, f2, f3, f4, f5, f6, f7, f8])) = f0
            ∧ ldns_rr_algorithm (some (ldns_rr.mk o ttl rrclass LDNS_RR_TYPE_RRSIG
              [f0, f1, f2, f3, f4, f5, f6, f7, f8])) = f1
            ∧ ldns_rr_labels (some (ldns_rr.mk o ttl rrclass LDNS_RR_TYPE_RRSIG
              [f0, f1, f2, f3, f4, f5, f6, f7, f8])) = f2
            ∧ ldns_rr_origttl (some (ldns_rr.mk o ttl rrclass LDNS_RR_TYPE_RRSIG
              [f0, f1, f2, f3, f4, f5, f6, f7, f8])) = f3
            ∧ ldns_rr_expiration (some (ldns_rr.mk o ttl rrclass LDNS_RR_TYPE_RRSIG
              [f0, f1, f2, f3, f4, f5, f6, f7, f8])) = f4
            ∧ ldns_rr_inception (some (ldns_rr.mk o ttl rrclass LDNS_RR_TYPE_RRSIG
              [f0, f1, f2, f3, f4, f5, f6, f7, f8])) = f5
            ∧ ldns_rr_keytag (some (ldns_rr.mk o ttl rrclass LDNS_RR_TYPE_RRSIG
              [f0, f1, f2, f3, f4, f5, f6, f7, f8])) = f6
            ∧ ldns_rr_signame (some (ldns_rr.mk o ttl rrclass LDNS_RR_TYPE_RRSIG
              [f0, f1, f2, f3, f4, f5, f6, f7, f8])) = f7
            ∧ ldns_rr_sig (some (ldns_rr.mk o ttl rrclass LDNS_RR_TYPE_RRSIG
              [f0, f1, f2, f3, f4, f5, f6, f7, f8])) = f8) := by
  refine ⟨⟨rfl, rfl, rfl, rfl, ?_⟩, ldns_rr_address_some r, ldns_rr_function_some _ r 0,
    ldns_rr_function_some _ r 0, ldns_rr_function_some _ r 1, ?_, ldns_rr_rdf_eq r, ?_⟩
  · intro k
    rw [rrsig_getter_eq]
    rfl
  · intro k
    rw [rrsig_getter_eq, ldns_rr_function_some]
  · intro o ttl rrclass f0 f1 f2 f3 f4 f5 f6 f7 f8
    refine ⟨?_, ?_, ?_, ?_, ?_, ?_, ?_, ?_, ?_⟩ <;>
      simp [ldns_rr_typecovered, ldns_rr_algorithm, ldns_rr_labels, ldns_rr_origttl,
        ldns_rr_expiration, ldns_rr_inception, ldns_rr_keytag, ldns_rr_signame, ldns_rr_sig,
        ldns_rr_function_some, ldns_rr_rdf, ldns_rr_rd_count]

/-- C17: on an RRSIG record whose nine rdata fields are all present, the setter of field `i`
returns true and stores `f`: afterwards the getter of field `i` returns `f` and the getter
of every other field `j` returns what it returned before; the rest of the record is as it
was.  Likewise `ldns_rr_set_address` followed by `ldns_rr_address` on an A or AAAA record
whose field 0 is present. -/
theorem set_then_get (r a : ldns_rr) (f : Option ldns_rdf) (i j : Fin 9)
    (hr : r._rr_type = LDNS_RR_TYPE_RRSIG)
    (hall : ∀ k : Fin 9, (rrsig_getter k (some r)).isSome = true)
    (ha : a._rr_type = LDNS_RR_TYPE_A ∨ a._rr_type = LDNS_RR_TYPE_AAAA)
    (ha0 : (ldns_rr_address (some a)).isSome = true) :
    (rrsig_setter i (some r) f).ret = true
      ∧ rrsig_getter i (rrsig_setter i (some r) f).rr = f
      ∧ (j ≠ i → rrsig_getter j (rrsig_setter i (some r) f).rr = rrsig_getter j (some r))
      ∧ (rrsig_setter i (some r) f).rr
          = some { r with _rdata_fields := r._rdata_fields.set i.val f }
      ∧ (ldns_rr_set_address (some a) f).ret = true
      ∧ ldns_rr_address (ldns_rr_set_address (some a) f).rr = f
      ∧ (ldns_rr_set_address (some a) f).rr
          = some { a with _rdata_fields := a._rdata_fields.set 0 f } := by
  have hi : (ldns_rr_rdf r i.val).isSome = true := by
    have := hall i
    rwa [rrsig_getter_eq, ldns_rr_function_some, if_pos hr] at this
  have hlt := rdf_isSome_lt r i.val hi
  have h0 : (ldns_rr_rdf a 0).isSome = true := by
    rwa [ldns_rr_address_some, if_pos ha] at ha0
  have hlt0 := rdf_isSome_lt a 0 h0
  rw [rrsig_setter_eq, ldns_rr_set_function_typed _ r f i.val hr, if_pos hlt,
    ldns_rr_set_address_typed a f ha, if_pos hlt0]
  refine ⟨hi, ?_, ?_, rfl, h0, ?_, rfl⟩
  · rw [rrsig_getter_eq, ldns_rr_function_some, if_pos hr]
    exact ldns_rr_rdf_set_same r f i.val hlt
  · intro hji
    have hne : j.val ≠ i.val := fun h => hji (Fin.ext h)
    rw [rrsig_getter_eq, rrsig_getter_eq, ldns_rr_function_some, ldns_rr_function_some,
      if_pos hr, if_pos hr]
    exact ldns_rr_rdf_set_other r f i.val j.val hne
  · rw [ldns_rr_address_some, if_pos ha]
    exact ldns_rr_rdf_set_same a f 0 hlt0

/-- Witness of C17: setting the signature field of the sample RRSIG record and the address
of the sample A record to the field 7. -/
theorem set_then_get_witness :
    (rrsig_setter 8 (some sample_rrsig) (some 7)).ret = true
      ∧ rrsig_getter 8 (rrsig_setter 8 (some sample_rrsig) (some 7)).rr = some 7
      ∧ ((0 : Fin 9) ≠ 8 → rrsig_getter 0 (rrsig_setter 8 (some sample_rrsig) (some 7)).rr
          = rrsig_getter 0 (some sample_rrsig))
      ∧ (rrsig_setter 8 (some sample_rrsig) (some 7)).rr
          = some { sample_rrsig with
              _rdata_fields := sample_rrsig._rdata_fields.set (8 : Fin 9).val (some 7) }
      ∧ (ldns_rr_set_address (some sample_a) (some 7)).ret = true
      ∧ ldns_rr_address (ldns_rr_set_address (some sample_a) (some 7)).rr = some 7
      ∧ (ldns_rr_set_address (some sample_a) (some 7)).rr
          = some { sample_a with _rdata_fields := sample_a._rdata_fields.set 0 (some 7) } :=
  set_then_get sample_rrsig sample_a (some 7) 8 0 rfl (by decide) (Or.inl rfl) (by decide)

/-- C18: a setter given a `NULL` record, or a record that is not of its type, returns false,
releases nothing and leaves the record exactly as it was; so no RRSIG setter changes an A,
NS or MX record. -/
theorem setters_reject (r : ldns_rr) (f : Option ldns_rdf) (k : Fin 9) :
    rrsig_setter k none f = { ret := false, rr := none, freed := none }
      ∧ ldns_rr_set_address none f = { ret := false, rr := none, freed := none }
      ∧ (r._rr_type ≠ LDNS_RR_TYPE_RRSIG →
          rrsig_setter k (some r) f = { ret := false, rr := some r, freed := none })
      ∧ (r._rr_type ≠ LDNS_RR_TYPE_A → r._rr_type ≠ LDNS_RR_TYPE_AAAA →
          ldns_rr_set_address (some r) f = { ret := false, rr := some r, freed := none })
      ∧ (r._rr_type = LDNS_RR_TYPE_A ∨ r._rr_type = LDNS_RR_TYPE_NS
            ∨ r._rr_type = LDNS_RR_TYPE_MX →
          (rrsig_setter k (some r) f).ret = false
            ∧ (rrsig_setter k (some r) f).rr = some r) := by
  have hrej : r._rr_type ≠ LDNS_RR_TYPE_RRSIG →
      rrsig_setter k (some r) f = { ret := false, rr := some r, freed := none } := by
    intro h
    rw [rrsig_setter_eq]
    simp [ldns_rr_set_function, ldns_rr_get_type, h]
  refine ⟨?_, rfl, hrej, ?_, ?_⟩
  · rw [rrsig_setter_eq]
    rfl
  · intro h1 h2
    simp [ldns_rr_set_address, ldns_rr_get_type, h1, h2]
  · intro h
    have hne : r._rr_type ≠ LDNS_RR_TYPE_RRSIG := by
      rcases h with h | h | h <;> rw [h] <;> decide
    rw [hrej hne]
    exact ⟨rfl, rfl⟩

/-- Witness of C18: the setter of the signature field on the sample MX record, and
`ldns_rr_set_address` on the same record. -/
theorem setters_reject_witness :
    rrsig_setter 8 (some sample_mx) (some 7)
        = { ret := false, rr := some sample_mx, freed := none }
      ∧ ldns_rr_set_address (some sample_mx) (some 7)
        = { ret := false, rr := some sample_mx, freed := none }
      ∧ (rrsig_setter 8 (some sample_mx) (some 7)).ret = false
      ∧ (rrsig_setter 8 (some sample_mx) (some 7)).rr = some sample_mx :=
  ⟨(setters_reject sample_mx (some 7) 8).2.2.1 (by decide),
   (setters_reject sample_mx (some 7) 8).2.2.2.1 (by decide) (by decide),
   ((setters_reject sample_mx (some 7) 8).2.2.2.2 (Or.inr (Or.inr rfl))).1,
   ((setters_reject sample_mx (some 7) 8).2.2.2.2 (Or.inr (Or.inr rfl))).2⟩

/-- C19: on a record of its type a setter returns true exactly when the slot at its
position held a value, and that value, the one `ldns_rr_set_rdf` returns, is what it hands
to `FREE`; when the position is not below the rdata count it returns false and the record is
unchanged. -/
theorem setter_return_value (r a : ldns_rr) (f : Option ldns_rdf) (k : Fin 9)
    (hr : r._rr_type = LDNS_RR_TYPE_RRSIG)
    (ha : a._rr_type = LDNS_RR_TYPE_A ∨ a._rr_type = LDNS_RR_TYPE_AAAA) :
    ((rrsig_setter k (some r) f).ret = true ↔ (ldns_rr_rdf r k.val).isSome = true)
      ∧ (ldns_rr_set_rdf r f k.val).1 = ldns_rr_rdf r k.val
      ∧ (rrsig_setter k (some r) f).freed = ldns_rr_rdf r k.val
      ∧ (¬ k.val < ldns_rr_rd_count r →
          (rrsig_setter k (some r) f).ret = false ∧ (rrsig_setter k (some r) f).rr = some r)
      ∧ ((ldns_rr_set_address (some a) f).ret = true ↔ (ldns_rr_rdf a 0).isSome = true)
      ∧ (ldns_rr_set_address (some a) f).freed = ldns_rr_rdf a 0
      ∧ (¬ 0 < ldns_rr_rd_count a →
          (ldns_rr_set_address (some a) f).ret = false
            ∧ (ldns_rr_set_address (some a) f).rr = some a) := by
  rw [rrsig_setter_eq, ldns_rr_set_function_typed _ r f k.val hr,
    ldns_rr_set_address_typed a f ha]
  refine ⟨Iff.rfl, ldns_rr_set_rdf_fst r f k.val, rfl, ?_, Iff.rfl, rfl, ?_⟩
  · intro h
    refine ⟨?_, by simp only [if_neg h]⟩
    simp [ldns_rr_rdf, h]
  · intro h
    refine ⟨?_, by simp only [if_neg h]⟩
    simp [ldns_rr_rdf, h]

/-- Witness of C19: the setter of the signature field on an RRSIG record that has only
three rdata fields, and `ldns_rr_set_address` on the sample A record. -/
theorem setter_return_value_witness :
    ((rrsig_setter 8 (some short_rrsig) (some 7)).ret = true
        ↔ (ldns_rr_rdf short_rrsig (8 : Fin 9).val).isSome = true)
      ∧ (ldns_rr_set_rdf short_rrsig (some 7) (8 : Fin 9).val).1
          = ldns_rr_rdf short_rrsig (8 : Fin 9).val
      ∧ (rrsig_setter 8 (some short_rrsig) (some 7)).freed
          = ldns_rr_rdf short_rrsig (8 : Fin 9).val
      ∧ (¬ (8 : Fin 9).val < ldns_rr_rd_count short_rrsig →
          (rrsig_setter 8 (some short_rrsig) (some 7)).ret = false
            ∧ (rrsig_setter 8 (some short_rrsig) (some 7)).rr = some short_rrsig)
      ∧ ((ldns_rr_set_address (some sample_a) (some 7)).ret = true
          ↔ (ldns_rr_rdf sample_a 0).isSome = true)
      ∧ (ldns_rr_set_address (some sample_a) (some 7)).freed = ldns_rr_rdf sample_a 0
      ∧ (¬ 0 < ldns_rr_rd_count sample_a →
          (ldns_rr_set_address (some sample_a) (some 7)).ret = false
            ∧ (ldns_rr_set_address (some sample_a) (some 7)).rr = some sample_a) :=
  setter_return_value short_rrsig sample_a (some 7) 8 rfl (Or.inl rfl)

end LdnsRr
